import Mathlib

/-!
Verification development for the chipolata CHIP-8 emulator core.

Shallow embedding of the Rust sources:
  - src/error.rs        : ErrorDetail
  - src/instruction.rs  : Instruction, Instruction.decode_from
  - src/memory.rs       : Memory and its bounded accessors
  - src/stack.rs        : Stack with its soft depth limit
  - src/keystate.rs     : KeyState
  - src/display.rs      : Display and Display.draw_sprite
  - src/processor.rs and src/processor/execute.rs : Processor state,
    the per-instruction handlers and the execute_cycle entry point.

Machine integers are modelled as Nat with explicit truncation (mod 256 for
u8 wrap, mod 65536 for u16 casts) at the places the Rust code wraps or
casts.  Fallible Rust functions returning Result are modelled with Except;
Rust panics (unwrap on an error value, which aborts the process) are
modelled by an outer Option, where none marks the panic.  Mutating methods
on borrowed state are modelled by returning the successor state.
-/

set_option maxHeartbeats 1000000
set_option maxRecDepth 100000

namespace Chipolata

/-- List utility: a byte buffer read with default 0, as the Rust index
    operator on an in-bounds buffer. -/
def byteAt (l : List Nat) (i : Nat) : Nat := l.getD i 0

theorem byteAt_set_self (l : List Nat) (i v : Nat) (h : i < l.length) :
    byteAt (l.set i v) i = v := by
  simp [byteAt, List.getD, List.getElem?_set_self, h]

theorem byteAt_set_ne (l : List Nat) (i j v : Nat) (h : i ≠ j) :
    byteAt (l.set i v) j = byteAt l j := by
  simp [byteAt, List.getD, List.getElem?_set_ne h]

theorem set_byteAt_self (l : List Nat) (i : Nat) :
    l.set i (byteAt l i) = l := by
  induction l generalizing i with
  | nil => simp
  | cons a t ih =>
    cases i with
    | zero => simp [byteAt]
    | succ n => simp [byteAt, List.getD] at ih ⊢; exact ih n

/-! ## Error values (src/error.rs)

The HashMap of faulty operands is modelled as an association list in
insertion order. -/

inductive ErrorDetail where
  | UnknownInstruction (opcode : Nat)
  | UnimplementedInstruction (opcode : Nat)
  | OperandsOutOfBounds (operands : List (String × Nat))
  | PopEmptyStack
  | PushFullStack
  | MemoryAddressOutOfBounds (address : Nat)
  | InvalidKey (key : Nat)
  | UnknownError
  deriving DecidableEq, Repr

/-! ## Instruction decoder (src/instruction.rs) -/

inductive Instruction where
  | Op004B
  | Op00CN (n : Nat)
  | Op00E0
  | Op00EE
  | Op00FB
  | Op00FC
  | Op00FD
  | Op00FE
  | Op00FF
  | Op0NNN (nnn : Nat)
  | Op1NNN (nnn : Nat)
  | Op2NNN (nnn : Nat)
  | Op3XNN (x : Nat) (nn : Nat)
  | Op4XNN (x : Nat) (nn : Nat)
  | Op5XY0 (x : Nat) (y : Nat)
  | Op6XNN (x : Nat) (nn : Nat)
  | Op7XNN (x : Nat) (nn : Nat)
  | Op8XY0 (x : Nat) (y : Nat)
  | Op8XY1 (x : Nat) (y : Nat)
  | Op8XY2 (x : Nat) (y : Nat)
  | Op8XY3 (x : Nat) (y : Nat)
  | Op8XY4 (x : Nat) (y : Nat)
  | Op8XY5 (x : Nat) (y : Nat)
  | Op8XY6 (x : Nat) (y : Nat)
  | Op8XY7 (x : Nat) (y : Nat)
  | Op8XYE (x : Nat) (y : Nat)
  | Op9XY0 (x : Nat) (y : Nat)
  | OpANNN (nnn : Nat)
  | OpBNNN (nnn : Nat)
  | OpCXNN (x : Nat) (nn : Nat)
  | OpDXYN (x : Nat) (y : Nat) (n : Nat)
  | OpEX9E (x : Nat)
  | OpEXA1 (x : Nat)
  | OpFX07 (x : Nat)
  | OpFX15 (x : Nat)
  | OpFX18 (x : Nat)
  | OpFX1E (x : Nat)
  | OpFX0A (x : Nat)
  | OpFX29 (x : Nat)
  | OpFX30 (x : Nat)
  | OpFX33 (x : Nat)
  | OpFX55 (x : Nat)
  | OpFX65 (x : Nat)
  | OpFX75 (x : Nat)
  | OpFX85 (x : Nat)
  deriving DecidableEq, Repr

/-- Instruction.decode_from, src/instruction.rs lines 61 to 211.  The
    opcode is a u16, divided into four nibbles by shifting and masking;
    the arms appear in source order. -/
def Instruction.decode_from (opcode : Nat) : Except ErrorDetail Instruction :=
  -- the four nibbles are obtained by bit shifting and masking as in the
  -- source; the single Rust four-nibble match is rendered as a dispatch on
  -- the first nibble followed by a match on the remaining nibbles, with the
  -- same first-match semantics and the same catch-all failure
  match opcode >>> 12 with
  | 0x0 =>
    match (opcode &&& 0x0F00) >>> 8, (opcode &&& 0x00F0) >>> 4,
        opcode &&& 0x000F with
    | 0x0, 0x4, 0xB => .ok .Op004B
    | 0x0, 0xC, n => .ok (.Op00CN n)
    | 0x0, 0xE, 0x0 => .ok .Op00E0
    | 0x0, 0xE, 0xE => .ok .Op00EE
    | 0x0, 0xF, 0xB => .ok .Op00FB
    | 0x0, 0xF, 0xC => .ok .Op00FC
    | 0x0, 0xF, 0xD => .ok .Op00FD
    | 0x0, 0xF, 0xE => .ok .Op00FE
    | 0x0, 0xF, 0xF => .ok .Op00FF
    | _, _, _ => .ok (.Op0NNN (opcode &&& 0x0FFF))
  | 0x1 => .ok (.Op1NNN (opcode &&& 0x0FFF))
  | 0x2 => .ok (.Op2NNN (opcode &&& 0x0FFF))
  | 0x3 => .ok (.Op3XNN ((opcode &&& 0x0F00) >>> 8) (opcode &&& 0x00FF))
  | 0x4 => .ok (.Op4XNN ((opcode &&& 0x0F00) >>> 8) (opcode &&& 0x00FF))
  | 0x5 => .ok (.Op5XY0 ((opcode &&& 0x0F00) >>> 8) ((opcode &&& 0x00F0) >>> 4))
  | 0x6 => .ok (.Op6XNN ((opcode &&& 0x0F00) >>> 8) (opcode &&& 0x00FF))
  | 0x7 => .ok (.Op7XNN ((opcode &&& 0x0F00) >>> 8) (opcode &&& 0x00FF))
  | 0x8 =>
    match opcode &&& 0x000F with
    | 0x0 => .ok (.Op8XY0 ((opcode &&& 0x0F00) >>> 8) ((opcode &&& 0x00F0) >>> 4))
    | 0x1 => .ok (.Op8XY1 ((opcode &&& 0x0F00) >>> 8) ((opcode &&& 0x00F0) >>> 4))
    | 0x2 => .ok (.Op8XY2 ((opcode &&& 0x0F00) >>> 8) ((opcode &&& 0x00F0) >>> 4))
    | 0x3 => .ok (.Op8XY3 ((opcode &&& 0x0F00) >>> 8) ((opcode &&& 0x00F0) >>> 4))
    | 0x4 => .ok (.Op8XY4 ((opcode &&& 0x0F00) >>> 8) ((opcode &&& 0x00F0) >>> 4))
    | 0x5 => .ok (.Op8XY5 ((opcode &&& 0x0F00) >>> 8) ((opcode &&& 0x00F0) >>> 4))
    | 0x6 => .ok (.Op8XY6 ((opcode &&& 0x0F00) >>> 8) ((opcode &&& 0x00F0) >>> 4))
    | 0x7 => .ok (.Op8XY7 ((opcode &&& 0x0F00) >>> 8) ((opcode &&& 0x00F0) >>> 4))
    | 0xE => .ok (.Op8XYE ((opcode &&& 0x0F00) >>> 8) ((opcode &&& 0x00F0) >>> 4))
    | _ => .error (.UnknownInstruction opcode)
  | 0x9 => .ok (.Op9XY0 ((opcode &&& 0x0F00) >>> 8) ((opcode &&& 0x00F0) >>> 4))
  | 0xA => .ok (.OpANNN (opcode &&& 0x0FFF))
  | 0xB => .ok (.OpBNNN (opcode &&& 0x0FFF))
  | 0xC => .ok (.OpCXNN ((opcode &&& 0x0F00) >>> 8) (opcode &&& 0x00FF))
  | 0xD => .ok (.OpDXYN ((opcode &&& 0x0F00) >>> 8) ((opcode &&& 0x00F0) >>> 4)
      (opcode &&& 0x000F))
  | 0xE =>
    match (opcode &&& 0x00F0) >>> 4, opcode &&& 0x000F with
    | 0x9, 0xE => .ok (.OpEX9E ((opcode &&& 0x0F00) >>> 8))
    | 0xA, 0x1 => .ok (.OpEXA1 ((opcode &&& 0x0F00) >>> 8))
    | _, _ => .error (.UnknownInstruction opcode)
  | 0xF =>
    match (opcode &&& 0x00F0) >>> 4, opcode &&& 0x000F with
    | 0x0, 0x7 => .ok (.OpFX07 ((opcode &&& 0x0F00) >>> 8))
    | 0x1, 0x5 => .ok (.OpFX15 ((opcode &&& 0x0F00) >>> 8))
    | 0x1, 0x8 => .ok (.OpFX18 ((opcode &&& 0x0F00) >>> 8))
    | 0x1, 0xE => .ok (.OpFX1E ((opcode &&& 0x0F00) >>> 8))
    | 0x0, 0xA => .ok (.OpFX0A ((opcode &&& 0x0F00) >>> 8))
    | 0x2, 0x9 => .ok (.OpFX29 ((opcode &&& 0x0F00) >>> 8))
    | 0x3, 0x0 => .ok (.OpFX30 ((opcode &&& 0x0F00) >>> 8))
    | 0x3, 0x3 => .ok (.OpFX33 ((opcode &&& 0x0F00) >>> 8))
    | 0x5, 0x5 => .ok (.OpFX55 ((opcode &&& 0x0F00) >>> 8))
    | 0x6, 0x5 => .ok (.OpFX65 ((opcode &&& 0x0F00) >>> 8))
    | 0x7, 0x5 => .ok (.OpFX75 ((opcode &&& 0x0F00) >>> 8))
    | 0x8, 0x5 => .ok (.OpFX85 ((opcode &&& 0x0F00) >>> 8))
    | _, _ => .error (.UnknownInstruction opcode)
  | _ => .error (.UnknownInstruction opcode)

end Chipolata

namespace Chipolata

theorem decode_from_error_eq (opcode : Nat) (e : ErrorDetail)
    (h : Instruction.decode_from opcode = .error e) :
    e = .UnknownInstruction opcode := by
  unfold Instruction.decode_from at h
  split at h
  all_goals try split at h
  all_goals first
    | exact Except.noConfusion h
    | exact (Except.error.inj h).symm

/-- C2: decoding is total over the 16-bit opcode space: every opcode either
    decodes to some tagged instruction variant or fails with an unknown
    instruction error carrying exactly that opcode; in particular the
    opcode 0xFFFF fails with the unknown instruction error carrying
    0xFFFF.  Determinism holds because decode_from is a function. -/
theorem decode_from_total :
    (∀ opcode : Nat, opcode < 65536 →
      (∃ i, Instruction.decode_from opcode = .ok i) ∨
        Instruction.decode_from opcode = .error (.UnknownInstruction opcode)) ∧
    Instruction.decode_from 0xFFFF = .error (.UnknownInstruction 0xFFFF) := by
  constructor
  · intro opcode _
    cases h : Instruction.decode_from opcode with
    | ok i => exact Or.inl ⟨i, rfl⟩
    | error e =>
      have he := decode_from_error_eq opcode e h
      subst he
      exact Or.inr rfl
  · rfl

/-- Witness for C2 at the concrete opcodes 0xD2FB (which decodes) and
    0xFFFF (which fails with the exact opcode). -/
theorem decode_from_total_witness :
    (0xD2FB : Nat) < 65536 ∧
      ((∃ i, Instruction.decode_from 0xD2FB = .ok i) ∨
        Instruction.decode_from 0xD2FB = .error (.UnknownInstruction 0xD2FB)) :=
  ⟨by decide, decode_from_total.1 0xD2FB (by decide)⟩

/-! ## Emulation level configuration (the enum used across the crate,
    with the per-variant quirk flags) -/

inductive EmulationLevel where
  | Chip8 (memory_limit_2k : Bool) (variable_cycle_timing : Bool)
  | Chip48
  | SuperChip11 (octo_compatibility_mode : Bool)
  deriving DecidableEq, Repr

/-! ## Memory (src/memory.rs)

The backing array has fixed physical capacity 0x1000; the addressable
space is soft limited by address_limit.  The randomised or zeroed initial
contents are irrelevant here, so the bytes field is simply carried as
state.  Out of range truncation of the reported address follows the
source cast to u16. -/

structure Memory where
  bytes : List Nat
  address_limit : Nat
  deriving DecidableEq, Repr

namespace Memory

/-- Memory.read_byte, src/memory.rs lines 61 to 68. -/
def read_byte (m : Memory) (address : Nat) : Except ErrorDetail Nat :=
  if address ≥ m.address_limit then
    .error (.MemoryAddressOutOfBounds (address % 65536))
  else
    .ok (byteAt m.bytes address)

/-- Memory.write_byte, src/memory.rs lines 78 to 85. -/
def write_byte (m : Memory) (address value : Nat) : Except ErrorDetail Memory :=
  if address ≥ m.address_limit then
    .error (.MemoryAddressOutOfBounds (address % 65536))
  else
    .ok { m with bytes := m.bytes.set address value }

/-- Memory.read_bytes, src/memory.rs lines 95 to 105.  With num_bytes = 0
    the source computation of final_address underflows usize; that case is
    never reached by the callers modelled here. -/
def read_bytes (m : Memory) (start_address num_bytes : Nat) :
    Except ErrorDetail (List Nat) :=
  let final_address := start_address + num_bytes - 1
  if final_address ≥ m.address_limit then
    .error (.MemoryAddressOutOfBounds (final_address % 65536))
  else
    .ok ((m.bytes.drop start_address).take num_bytes)

/-- Memory.read_two_bytes, src/memory.rs lines 118 to 126: big-endian
    16-bit read used for opcode fetch. -/
def read_two_bytes (m : Memory) (start_address : Nat) : Except ErrorDetail Nat :=
  if start_address + 1 ≥ m.address_limit then
    .error (.MemoryAddressOutOfBounds ((1 + start_address) % 65536))
  else
    .ok ((byteAt m.bytes start_address <<< 8) ||| byteAt m.bytes (start_address + 1))

/-- The sequential write loop inside Memory.write_bytes. -/
def writeList (l : List Nat) (start : Nat) : List Nat → List Nat
  | [] => l
  | b :: rest => writeList (l.set start b) (start + 1) rest

/-- Memory.write_bytes, src/memory.rs lines 136 to 155. -/
def write_bytes (m : Memory) (start_address : Nat) (bytes_to_write : List Nat) :
    Except ErrorDetail Memory :=
  let final_address := start_address + bytes_to_write.length - 1
  if final_address ≥ m.address_limit then
    .error (.MemoryAddressOutOfBounds (final_address % 65536))
  else
    .ok { m with bytes := writeList m.bytes start_address bytes_to_write }

/-- Memory.max_addressable_size, src/memory.rs lines 158 to 160. -/
def max_addressable_size (m : Memory) : Nat := m.address_limit

end Memory

/-! ## Stack (src/stack.rs) -/

structure Stack where
  bytes : List Nat
  pointer : Nat
  stack_size_limit : Nat
  deriving DecidableEq, Repr

namespace Stack

/-- Stack.push, src/stack.rs lines 45 to 52.  The mutable receiver is
    modelled by returning the successor stack; an error leaves the caller
    holding the unchanged stack. -/
def push (s : Stack) (value : Nat) : Except ErrorDetail Stack :=
  if s.pointer ≥ s.stack_size_limit then
    .error .PushFullStack
  else
    .ok { s with bytes := s.bytes.set s.pointer value, pointer := s.pointer + 1 }

/-- Stack.pop, src/stack.rs lines 56 to 63. -/
def pop (s : Stack) : Except ErrorDetail (Nat × Stack) :=
  if s.pointer ≤ 0 then
    .error .PopEmptyStack
  else
    .ok (byteAt s.bytes (s.pointer - 1), { s with pointer := s.pointer - 1 })

end Stack

/-! ## KeyState (src/keystate.rs): 16 boolean flags -/

structure KeyState where
  keys_pressed : List Bool
  deriving DecidableEq, Repr

namespace KeyState

/-- KeyState.is_key_pressed, src/keystate.rs lines 30 to 35. -/
def is_key_pressed (k : KeyState) (key : Nat) : Except ErrorDetail Bool :=
  if key < 16 then .ok (k.keys_pressed.getD key false)
  else .error (.InvalidKey key)

/-- KeyState.set_key_status, src/keystate.rs lines 44 to 49. -/
def set_key_status (k : KeyState) (key : Nat) (status : Bool) :
    Except ErrorDetail KeyState :=
  if key < 16 then .ok { keys_pressed := k.keys_pressed.set key status }
  else .error (.InvalidKey key)

/-- KeyState.get_keys_pressed, src/keystate.rs lines 52 to 66: the hex
    ordinals of all keys currently pressed, in ascending order, or none
    when no key is pressed.  The source loop over 0..16 pushing each
    pressed ordinal is the filter of the range. -/
def get_keys_pressed (k : KeyState) : Option (List Nat) :=
  let keys := (List.range 16).filter (fun i => k.keys_pressed.getD i false)
  if keys.length > 0 then some keys else none

end KeyState

/-- C6: a memory read succeeds exactly when the address is below the soft
    address limit and otherwise fails carrying the offending address; a
    stack push succeeds exactly when the pointer is below the soft depth
    limit and otherwise fails with the push error; a stack pop succeeds
    exactly when the pointer is positive and otherwise fails with the pop
    error.  Errors return no successor state, so the state the caller
    holds is unchanged. -/
theorem memory_stack_bounds :
    (∀ (m : Memory) (a : Nat),
      ((∃ v, Memory.read_byte m a = .ok v) ↔ a < m.address_limit) ∧
      (m.address_limit ≤ a →
        Memory.read_byte m a = .error (.MemoryAddressOutOfBounds (a % 65536)))) ∧
    (∀ (s : Stack) (v : Nat),
      ((∃ s2, Stack.push s v = .ok s2) ↔ s.pointer < s.stack_size_limit) ∧
      (s.stack_size_limit ≤ s.pointer → Stack.push s v = .error .PushFullStack)) ∧
    (∀ s : Stack,
      ((∃ r, Stack.pop s = .ok r) ↔ 0 < s.pointer) ∧
      (s.pointer = 0 → Stack.pop s = .error .PopEmptyStack)) := by
  refine ⟨fun m a => ?_, fun s v => ?_, fun s => ?_⟩
  · unfold Memory.read_byte
    constructor
    · split <;> simp_all <;> omega
    · intro h
      split <;> simp_all
  · unfold Stack.push
    constructor
    · split <;> simp_all <;> omega
    · intro h
      split <;> simp_all
  · unfold Stack.pop
    constructor
    · split <;> simp_all <;> omega
    · intro h
      split <;> simp_all

/-- Witness for C6 on a concrete memory and stack: an in-range and an out
    of range access on each. -/
theorem memory_stack_bounds_witness :
    (((∃ v, Memory.read_byte ⟨[7, 8, 9], 2⟩ 1 = .ok v) ↔ 1 < 2) ∧
      ((2 : Nat) ≤ 5 →
        Memory.read_byte ⟨[7, 8, 9], 2⟩ 5 =
          .error (.MemoryAddressOutOfBounds (5 % 65536)))) ∧
    (((∃ s2, Stack.push ⟨[0, 0], 2, 2⟩ 77 = .ok s2) ↔ 2 < 2) ∧
      ((∃ r, Stack.pop ⟨[4, 0], 1, 2⟩ = .ok r) ↔ 0 < 1)) :=
  ⟨⟨(memory_stack_bounds.1 ⟨[7, 8, 9], 2⟩ 1).1,
    fun _ => (memory_stack_bounds.1 ⟨[7, 8, 9], 2⟩ 5).2 (by decide)⟩,
   ⟨(memory_stack_bounds.2.1 ⟨[0, 0], 2, 2⟩ 77).1,
    (memory_stack_bounds.2.2 ⟨[4, 0], 1, 2⟩).1⟩⟩

/-! ## Display (src/display.rs)

The frame buffer is a flat byte list indexed row major: the byte of row r
at byte column c sits at flat index r * row_size_bytes + c.  The u8 left
shifts in the source truncate to 8 bits, rendered here as mod 256. -/

structure Display where
  row_size_bytes : Nat
  column_size_pixels : Nat
  pixels : List Nat
  deriving DecidableEq, Repr

/-- XOR the byte value v into the buffer at flat index i, as the source
    statement display_byte ^= sprite_byte. -/
def xorAt (px : List Nat) (i v : Nat) : List Nat := px.set i (byteAt px i ^^^ v)

/-- Conditionally XOR: the guarded second and third byte updates of a
    sprite row (the source applies them under a flag computed before the
    loop). -/
def condXor (b : Bool) (i v : Nat) (px : List Nat) : List Nat :=
  if b then xorAt px i v else px

namespace Display

/-- The constructible display shapes, from Display::new: 8 bytes by 32
    rows in low resolution, 16 bytes by 64 rows in high resolution, with a
    buffer of exactly row_size_bytes * column_size_pixels bytes. -/
def WF (d : Display) : Prop :=
  d.pixels.length = d.row_size_bytes * d.column_size_pixels ∧
    ((d.row_size_bytes = 8 ∧ d.column_size_pixels = 32) ∨
      (d.row_size_bytes = 16 ∧ d.column_size_pixels = 64))

instance (d : Display) : Decidable d.WF := by unfold WF; infer_instance

/-- Sprite height in pixel rows: half the byte count for a double width
    sprite (two bytes per row), else the byte count. -/
def spriteHeight (sprite : List Nat) (dw : Bool) : Nat :=
  if dw then sprite.length / 2 else sprite.length

/-- Index of the left hand sprite byte of row j. -/
def byteIndex (dw : Bool) (j : Nat) : Nat := if dw then 2 * j else j

/-- The sprite bits XORed into the first touched display byte of row j:
    the row byte shifted right to align with the display byte. -/
def v1 (sprite : List Nat) (dw : Bool) (off j : Nat) : Nat :=
  byteAt sprite (byteIndex dw j) >>> off

/-- The sprite bits XORed into the second touched display byte of row j:
    the spill of the first sprite byte, plus for a double width sprite the
    aligned part of the second sprite byte. -/
def v2 (sprite : List Nat) (dw : Bool) (off j : Nat) : Nat :=
  (if off = 0 then 0 else (byteAt sprite (byteIndex dw j) <<< (8 - off)) % 256) |||
    (if dw then byteAt sprite (byteIndex dw j + 1) >>> off else 0)

/-- The sprite bits XORed into the third touched display byte of row j of
    a double width sprite: the spill of the second sprite byte. -/
def v3 (sprite : List Nat) (dw : Bool) (off j : Nat) : Nat :=
  (byteAt sprite (byteIndex dw j + 1) <<< (8 - off)) % 256

/-- One iteration of the row loop of draw_sprite (src/display.rs lines 155
    to 210): sequentially check and XOR the first, optionally second,
    optionally third display byte of the target row, then bump the
    collision count when any checked byte had a common set bit with the
    incoming sprite bits. -/
def rowStep (R y0 xb : Nat) (need2 need3 : Bool) (sprite : List Nat) (dw : Bool)
    (off : Nat) (acc : List Nat × Nat) (j : Nat) : List Nat × Nat :=
  let p1 := (y0 + j) * R + xb
  let hit1 := decide (byteAt acc.1 p1 &&& v1 sprite dw off j > 0)
  let px1 := condXor true p1 (v1 sprite dw off j) acc.1
  let hit2 := need2 && decide (byteAt px1 (p1 + 1) &&& v2 sprite dw off j > 0)
  let px2 := condXor need2 (p1 + 1) (v2 sprite dw off j) px1
  let hit3 := need3 && decide (byteAt px2 (p1 + 2) &&& v3 sprite dw off j > 0)
  let px3 := condXor need3 (p1 + 2) (v3 sprite dw off j) px2
  (px3, acc.2 + if hit1 || hit2 || hit3 then 1 else 0)

/-- The wrapped starting row, y_start_pixel modulo the column count. -/
def y0Of (d : Display) (y_start_pixel : Nat) : Nat :=
  y_start_pixel % d.column_size_pixels

/-- The number of sprite rows drawn: the sprite height clipped at the
    bottom edge of the display. -/
def rowsToDraw (d : Display) (y_start_pixel : Nat) (sprite : List Nat)
    (dw : Bool) : Nat :=
  min (spriteHeight sprite dw)
    (d.column_size_pixels - min d.column_size_pixels (y0Of d y_start_pixel))

/-- The starting byte column, wrapped modulo the row byte count. -/
def xByteOf (d : Display) (x_start_pixel : Nat) : Nat :=
  (x_start_pixel / 8) % d.row_size_bytes

/-- Whether the sprite rows spill into a second display byte. -/
def need2Of (d : Display) (x_start_pixel : Nat) (dw : Bool) : Bool :=
  if dw then !(decide (xByteOf d x_start_pixel = d.row_size_bytes - 1))
  else decide (0 < x_start_pixel % 8) &&
    decide (xByteOf d x_start_pixel < d.row_size_bytes - 1)

/-- Whether the sprite rows spill into a third display byte. -/
def need3Of (d : Display) (x_start_pixel : Nat) (dw : Bool) : Bool :=
  if dw then decide (0 < x_start_pixel % 8) &&
    decide (xByteOf d x_start_pixel < d.row_size_bytes - 2)
  else false

/-- Display.draw_sprite, src/display.rs lines 97 to 212.  Returns the
    updated display together with the pair of the collided row count and
    the clipped row count, the latter hard wired to zero as in the
    source.  The local bindings of the Rust function are the named helper
    functions above; Rust checks then XORs each touched byte in sequence,
    and the loop over the drawn rows is a fold over their indices. -/
def draw_sprite (d : Display) (x_start_pixel y_start_pixel : Nat)
    (sprite : List Nat) (double_width_sprite : Bool) :
    Display × Nat × Nat :=
  -- the computed clip count is deliberately discarded; zero is reported
  let rows_clipped : Nat := 0
  let res := (List.range (rowsToDraw d y_start_pixel sprite double_width_sprite)).foldl
    (rowStep d.row_size_bytes (y0Of d y_start_pixel) (xByteOf d x_start_pixel)
      (need2Of d x_start_pixel double_width_sprite)
      (need3Of d x_start_pixel double_width_sprite)
      sprite double_width_sprite (x_start_pixel % 8)) (d.pixels, 0)
  ({ d with pixels := res.1 }, res.2, rows_clipped)

end Display

/-! ### Machinery for reasoning about draw_sprite

The row loop only ever XORs fixed sprite derived values at fixed flat
indices; the lemmas below capture the effect of one row, commutation of
distinct rows, and self inversion. -/

theorem byteAt_xorAt_ne (px : List Nat) (i j v : Nat) (h : i ≠ j) :
    byteAt (xorAt px i v) j = byteAt px j :=
  byteAt_set_ne px i j _ h

theorem xorAt_xorAt_self (px : List Nat) (i v : Nat) :
    xorAt (xorAt px i v) i v = px := by
  by_cases h : i < px.length
  · unfold xorAt
    rw [byteAt_set_self px i _ h, List.set_set]
    have hv : byteAt px i ^^^ v ^^^ v = byteAt px i := by
      rw [Nat.xor_assoc, Nat.xor_self, Nat.xor_zero]
    rw [hv, set_byteAt_self]
  · have hle : px.length ≤ i := le_of_not_lt h
    unfold xorAt
    rw [List.set_eq_of_length_le hle, List.set_eq_of_length_le hle]

theorem xorAt_comm (px : List Nat) (i j v w : Nat) (h : i ≠ j) :
    xorAt (xorAt px i v) j w = xorAt (xorAt px j w) i v := by
  unfold xorAt
  rw [byteAt_set_ne px i j _ h, byteAt_set_ne px j i _ (Ne.symm h),
    List.set_comm _ _ _ h]

theorem byteAt_condXor_ne (b : Bool) (px : List Nat) (i q v : Nat)
    (h : b = true → i ≠ q) :
    byteAt (condXor b i v px) q = byteAt px q := by
  cases b with
  | false => rfl
  | true => exact byteAt_xorAt_ne px i q v (h rfl)

theorem condXor_self (b : Bool) (i v : Nat) (px : List Nat) :
    condXor b i v (condXor b i v px) = px := by
  cases b with
  | false => rfl
  | true => exact xorAt_xorAt_self px i v

theorem condXor_comm (b c : Bool) (i j v w : Nat) (px : List Nat)
    (h : b = true → c = true → i ≠ j) :
    condXor b i v (condXor c j w px) = condXor c j w (condXor b i v px) := by
  cases b with
  | false => rfl
  | true =>
    cases c with
    | false => rfl
    | true => exact xorAt_comm px j i w v (Ne.symm (h rfl rfl))

/-- Two flat byte indices in distinct rows are distinct, provided each
    byte column lies within the row. -/
theorem flat_ne {R r r2 c c2 : Nat} (hc : c < R) (hc2 : c2 < R) (hr : r ≠ r2) :
    r * R + c ≠ r2 * R + c2 := by
  intro h
  apply hr
  have hR : 0 < R := Nat.lt_of_le_of_lt (Nat.zero_le c) hc
  have h1 : (r * R + c) / R = r := by
    rw [Nat.mul_comm, Nat.mul_add_div hR, Nat.div_eq_of_lt hc, Nat.add_zero]
  have h2 : (r2 * R + c2) / R = r2 := by
    rw [Nat.mul_comm, Nat.mul_add_div hR, Nat.div_eq_of_lt hc2, Nat.add_zero]
  rw [← h1, h, h2]

namespace Display

/-- The pixel effect of the row loop body at row j, as a composition of
    the up to three guarded byte XORs. -/
def rowPix (R y0 xb : Nat) (need2 need3 : Bool) (sprite : List Nat) (dw : Bool)
    (off j : Nat) (px : List Nat) : List Nat :=
  condXor need3 ((y0 + j) * R + xb + 2) (v3 sprite dw off j)
    (condXor need2 ((y0 + j) * R + xb + 1) (v2 sprite dw off j)
      (condXor true ((y0 + j) * R + xb) (v1 sprite dw off j) px))

/-- Whether the row loop body at row j counts a collision, phrased against
    the buffer state before the row is XORed. -/
def rowHit (R y0 xb : Nat) (need2 need3 : Bool) (sprite : List Nat) (dw : Bool)
    (off : Nat) (px : List Nat) (j : Nat) : Bool :=
  decide (byteAt px ((y0 + j) * R + xb) &&& v1 sprite dw off j > 0) ||
    (need2 && decide (byteAt px ((y0 + j) * R + xb + 1) &&& v2 sprite dw off j > 0)) ||
    (need3 && decide (byteAt px ((y0 + j) * R + xb + 2) &&& v3 sprite dw off j > 0))

/-- The sequential row loop body equals the rowPix pixel effect plus the
    rowHit collision increment: the second and third collision checks read
    bytes the earlier XORs of the same row did not touch. -/
theorem rowStep_eq (R y0 xb : Nat) (need2 need3 : Bool) (sprite : List Nat)
    (dw : Bool) (off : Nat) (acc : List Nat × Nat) (j : Nat) :
    rowStep R y0 xb need2 need3 sprite dw off acc j =
      (rowPix R y0 xb need2 need3 sprite dw off j acc.1,
        acc.2 +
          if rowHit R y0 xb need2 need3 sprite dw off acc.1 j then 1 else 0) := by
  have h1 : ((y0 + j) * R + xb : Nat) ≠ (y0 + j) * R + xb + 1 := by omega
  have h2 : ((y0 + j) * R + xb : Nat) ≠ (y0 + j) * R + xb + 2 := by omega
  have h3 : ((y0 + j) * R + xb + 1 : Nat) ≠ (y0 + j) * R + xb + 2 := by omega
  unfold rowStep rowPix rowHit
  dsimp only
  rw [byteAt_condXor_ne true _ _ _ _ (fun _ => h1),
    byteAt_condXor_ne need2 _ _ _ _ (fun _ => h3),
    byteAt_condXor_ne true _ _ _ _ (fun _ => h2)]

section RowLemmas

variable (R y0 xb : Nat) (need2 need3 : Bool) (sprite : List Nat) (dw : Bool)
  (off : Nat)

/-- Iterated application of the row effects for rows 0 to n - 1, in loop
    order. -/
def rowsApply : Nat → List Nat → List Nat
  | 0, px => px
  | n + 1, px =>
    rowPix R y0 xb need2 need3 sprite dw off n (rowsApply n px)

/-- The row loop fold computes the iterated row effects together with the
    number of rows whose collision check fired against the buffer state
    current when that row was processed. -/
theorem fold_char (n : Nat) (px : List Nat) (c : Nat) :
    (List.range n).foldl (rowStep R y0 xb need2 need3 sprite dw off) (px, c) =
      (rowsApply R y0 xb need2 need3 sprite dw off n px,
        c + ((List.range n).filter (fun j =>
          rowHit R y0 xb need2 need3 sprite dw off
            (rowsApply R y0 xb need2 need3 sprite dw off j px) j)).length) := by
  induction n with
  | zero => simp [rowsApply]
  | succ n ih =>
    rw [List.range_succ, List.foldl_append, ih, List.filter_append]
    simp only [List.foldl_cons, List.foldl_nil, rowStep_eq, rowsApply,
      List.length_append, List.filter_cons, List.filter_nil]
    rw [Prod.ext_iff]
    refine ⟨rfl, ?_⟩
    by_cases hp : rowHit R y0 xb need2 need3 sprite dw off
        (rowsApply R y0 xb need2 need3 sprite dw off n px) n
    · simp only [hp, if_true, List.length_cons, List.length_nil]
      omega
    · simp only [hp, if_false, List.length_nil, Bool.false_eq_true,
        List.length_cons]
      omega

/-- A guarded byte XOR at an index outside the bytes a row touches passes
    through the row effect. -/
theorem condXor_rowPix_comm (b : Bool) (q v j : Nat) (px : List Nat)
    (h0 : b = true → q ≠ (y0 + j) * R + xb)
    (hh2 : b = true → need2 = true → q ≠ (y0 + j) * R + xb + 1)
    (hh3 : b = true → need3 = true → q ≠ (y0 + j) * R + xb + 2) :
    condXor b q v (rowPix R y0 xb need2 need3 sprite dw off j px) =
      rowPix R y0 xb need2 need3 sprite dw off j (condXor b q v px) := by
  unfold rowPix
  rw [condXor_comm b need3 _ _ _ _ _ hh3,
    condXor_comm b need2 _ _ _ _ _ hh2,
    condXor_comm b true _ _ _ _ _ (fun hb _ => h0 hb)]

/-- Row effects of distinct rows commute: all touched byte columns lie
    within the row, so the touched flat indices are disjoint. -/
theorem rowPix_comm (j j2 : Nat) (hjj : j ≠ j2) (hxb : xb < R)
    (h2 : need2 = true → xb + 1 < R) (h3 : need3 = true → xb + 2 < R)
    (px : List Nat) :
    rowPix R y0 xb need2 need3 sprite dw off j
        (rowPix R y0 xb need2 need3 sprite dw off j2 px) =
      rowPix R y0 xb need2 need3 sprite dw off j2
        (rowPix R y0 xb need2 need3 sprite dw off j px) := by
  have hrow : y0 + j ≠ y0 + j2 := by omega
  calc
    rowPix R y0 xb need2 need3 sprite dw off j
        (rowPix R y0 xb need2 need3 sprite dw off j2 px) =
        condXor need3 ((y0 + j) * R + xb + 2) (v3 sprite dw off j)
          (condXor need2 ((y0 + j) * R + xb + 1) (v2 sprite dw off j)
            (condXor true ((y0 + j) * R + xb) (v1 sprite dw off j)
              (rowPix R y0 xb need2 need3 sprite dw off j2 px))) := rfl
    _ = condXor need3 ((y0 + j) * R + xb + 2) (v3 sprite dw off j)
          (condXor need2 ((y0 + j) * R + xb + 1) (v2 sprite dw off j)
            (rowPix R y0 xb need2 need3 sprite dw off j2
              (condXor true ((y0 + j) * R + xb) (v1 sprite dw off j) px))) := by
        rw [condXor_rowPix_comm R y0 xb need2 need3 sprite dw off true
          ((y0 + j) * R + xb) (v1 sprite dw off j) j2 px
          (fun _ => flat_ne hxb hxb hrow)
          (fun _ hn2 => flat_ne hxb (h2 hn2) hrow)
          (fun _ hn3 => flat_ne hxb (h3 hn3) hrow)]
    _ = condXor need3 ((y0 + j) * R + xb + 2) (v3 sprite dw off j)
          (rowPix R y0 xb need2 need3 sprite dw off j2
            (condXor need2 ((y0 + j) * R + xb + 1) (v2 sprite dw off j)
              (condXor true ((y0 + j) * R + xb) (v1 sprite dw off j) px))) := by
        rw [condXor_rowPix_comm R y0 xb need2 need3 sprite dw off need2
          ((y0 + j) * R + xb + 1) (v2 sprite dw off j) j2 _
          (fun hn2 => flat_ne (h2 hn2) hxb hrow)
          (fun hn2 hn2b => flat_ne (h2 hn2) (h2 hn2b) hrow)
          (fun hn2 hn3 => flat_ne (h2 hn2) (h3 hn3) hrow)]
    _ = rowPix R y0 xb need2 need3 sprite dw off j2
          (condXor need3 ((y0 + j) * R + xb + 2) (v3 sprite dw off j)
            (condXor need2 ((y0 + j) * R + xb + 1) (v2 sprite dw off j)
              (condXor true ((y0 + j) * R + xb) (v1 sprite dw off j) px))) := by
        rw [condXor_rowPix_comm R y0 xb need2 need3 sprite dw off need3
          ((y0 + j) * R + xb + 2) (v3 sprite dw off j) j2 _
          (fun hn3 => flat_ne (h3 hn3) hxb hrow)
          (fun hn3 hn2 => flat_ne (h3 hn3) (h2 hn2) hrow)
          (fun hn3 hn3b => flat_ne (h3 hn3) (h3 hn3b) hrow)]
    _ = rowPix R y0 xb need2 need3 sprite dw off j2
          (rowPix R y0 xb need2 need3 sprite dw off j px) := rfl

/-- A row effect is an involution: XORing the same three values at the
    same three distinct indices twice restores the buffer. -/
theorem rowPix_invol (j : Nat) (px : List Nat) :
    rowPix R y0 xb need2 need3 sprite dw off j
        (rowPix R y0 xb need2 need3 sprite dw off j px) = px := by
  have h02 : (true : Bool) = true → need3 = true →
      ((y0 + j) * R + xb : Nat) ≠ (y0 + j) * R + xb + 2 := fun _ _ => by omega
  have h01 : (true : Bool) = true → need2 = true →
      ((y0 + j) * R + xb : Nat) ≠ (y0 + j) * R + xb + 1 := fun _ _ => by omega
  have h12 : need2 = true → need3 = true →
      ((y0 + j) * R + xb + 1 : Nat) ≠ (y0 + j) * R + xb + 2 := fun _ _ => by omega
  unfold rowPix
  rw [condXor_comm true need3 _ _ _ _ _ h02,
    condXor_comm true need2 _ _ _ _ _ h01,
    condXor_self true _ _,
    condXor_comm need2 need3 _ _ _ _ _ h12,
    condXor_self need2 _ _,
    condXor_self need3 _ _]

/-- Row effects commute past the iterated effects of earlier rows. -/
theorem rowsApply_rowPix_comm (n j : Nat) (hn : n ≤ j) (hxb : xb < R)
    (h2 : need2 = true → xb + 1 < R) (h3 : need3 = true → xb + 2 < R)
    (px : List Nat) :
    rowsApply R y0 xb need2 need3 sprite dw off n
        (rowPix R y0 xb need2 need3 sprite dw off j px) =
      rowPix R y0 xb need2 need3 sprite dw off j
        (rowsApply R y0 xb need2 need3 sprite dw off n px) := by
  induction n with
  | zero => rfl
  | succ n ih =>
    simp only [rowsApply]
    rw [ih (by omega), rowPix_comm R y0 xb need2 need3 sprite dw off n j
      (by omega) hxb h2 h3]

/-- Applying all row effects twice restores the buffer. -/
theorem rowsApply_invol (n : Nat) (hxb : xb < R)
    (h2 : need2 = true → xb + 1 < R) (h3 : need3 = true → xb + 2 < R)
    (px : List Nat) :
    rowsApply R y0 xb need2 need3 sprite dw off n
        (rowsApply R y0 xb need2 need3 sprite dw off n px) = px := by
  induction n with
  | zero => rfl
  | succ n ih =>
    simp only [rowsApply]
    rw [rowsApply_rowPix_comm R y0 xb need2 need3 sprite dw off n n
        (Nat.le_refl n) hxb h2 h3,
      rowPix_invol, ih]

/-- Reading a byte a row does not touch passes through the row effect. -/
theorem byteAt_rowPix_ne (j q : Nat) (px : List Nat)
    (h0 : q ≠ (y0 + j) * R + xb)
    (hq2 : need2 = true → q ≠ (y0 + j) * R + xb + 1)
    (hq3 : need3 = true → q ≠ (y0 + j) * R + xb + 2) :
    byteAt (rowPix R y0 xb need2 need3 sprite dw off j px) q = byteAt px q := by
  unfold rowPix
  rw [byteAt_condXor_ne need3 _ _ _ _ (fun hb => Ne.symm (hq3 hb)),
    byteAt_condXor_ne need2 _ _ _ _ (fun hb => Ne.symm (hq2 hb)),
    byteAt_condXor_ne true _ _ _ _ (fun _ => Ne.symm h0)]

/-- The collision check of a row is unaffected by the effect of another
    row. -/
theorem rowHit_rowPix (j j2 : Nat) (hjj : j ≠ j2) (hxb : xb < R)
    (h2 : need2 = true → xb + 1 < R) (h3 : need3 = true → xb + 2 < R)
    (px : List Nat) :
    rowHit R y0 xb need2 need3 sprite dw off
        (rowPix R y0 xb need2 need3 sprite dw off j2 px) j =
      rowHit R y0 xb need2 need3 sprite dw off px j := by
  have hrow : y0 + j ≠ y0 + j2 := by omega
  unfold rowHit
  rw [byteAt_rowPix_ne R y0 xb need2 need3 sprite dw off j2
    ((y0 + j) * R + xb) px
    (flat_ne hxb hxb hrow)
    (fun hn2 => flat_ne hxb (h2 hn2) hrow)
    (fun hn3 => flat_ne hxb (h3 hn3) hrow)]
  cases hn2 : need2 with
  | false => cases hn3 : need3 with
    | false => rfl
    | true =>
      rw [byteAt_rowPix_ne R y0 xb false true sprite dw off j2
        ((y0 + j) * R + xb + 2) px
        (flat_ne (h3 hn3) hxb hrow)
        (fun hb2 => nomatch hb2)
        (fun _ => flat_ne (h3 hn3) (h3 hn3) hrow)]
      simp
  | true => cases hn3 : need3 with
    | false =>
      rw [byteAt_rowPix_ne R y0 xb true false sprite dw off j2
        ((y0 + j) * R + xb + 1) px
        (flat_ne (h2 hn2) hxb hrow)
        (fun _ => flat_ne (h2 hn2) (h2 hn2) hrow)
        (fun hb3 => nomatch hb3)]
      simp
    | true =>
      rw [byteAt_rowPix_ne R y0 xb true true sprite dw off j2
        ((y0 + j) * R + xb + 1) px
        (flat_ne (h2 hn2) hxb hrow)
        (fun _ => flat_ne (h2 hn2) (h2 hn2) hrow)
        (fun _ => flat_ne (h2 hn2) (h3 hn3) hrow),
        byteAt_rowPix_ne R y0 xb true true sprite dw off j2
        ((y0 + j) * R + xb + 2) px
        (flat_ne (h3 hn3) hxb hrow)
        (fun _ => flat_ne (h3 hn3) (h2 hn2) hrow)
        (fun _ => flat_ne (h3 hn3) (h3 hn3) hrow)]

/-- The collision check of row j is unaffected by the effects of the rows
    before it. -/
theorem rowHit_rowsApply (n j : Nat) (hn : n ≤ j) (hxb : xb < R)
    (h2 : need2 = true → xb + 1 < R) (h3 : need3 = true → xb + 2 < R)
    (px : List Nat) :
    rowHit R y0 xb need2 need3 sprite dw off
        (rowsApply R y0 xb need2 need3 sprite dw off n px) j =
      rowHit R y0 xb need2 need3 sprite dw off px j := by
  induction n with
  | zero => rfl
  | succ n ih =>
    simp only [rowsApply]
    rw [rowHit_rowPix R y0 xb need2 need3 sprite dw off j n (by omega) hxb h2 h3,
      ih (by omega)]

/-- Bytes in rows the loop never visits are unchanged. -/
theorem byteAt_rowsApply_outside (n r c : Nat) (hc : c < R)
    (hr : ∀ j, j < n → r ≠ y0 + j) (hxb : xb < R)
    (h2 : need2 = true → xb + 1 < R) (h3 : need3 = true → xb + 2 < R)
    (px : List Nat) :
    byteAt (rowsApply R y0 xb need2 need3 sprite dw off n px) (r * R + c) =
      byteAt px (r * R + c) := by
  induction n with
  | zero => rfl
  | succ n ih =>
    simp only [rowsApply]
    rw [byteAt_rowPix_ne R y0 xb need2 need3 sprite dw off n (r * R + c) _
      (flat_ne hc hxb (hr n (by omega)))
      (fun hn2 => flat_ne hc (h2 hn2) (hr n (by omega)))
      (fun hn3 => flat_ne hc (h3 hn3) (hr n (by omega)))]
    exact ih (fun j hj => hr j (by omega))

end RowLemmas

/-- The sprite bits of row j that land in byte column c of its display
    row: the aligned first byte at the starting column, the spill byte one
    column further when used, the second spill another column further when
    used, and nothing elsewhere. -/
def rowMaskByte (xb : Nat) (need2 need3 : Bool) (sprite : List Nat) (dw : Bool)
    (off j c : Nat) : Nat :=
  (if c = xb then v1 sprite dw off j else 0) |||
    (if need2 = true ∧ c = xb + 1 then v2 sprite dw off j else 0) |||
    (if need3 = true ∧ c = xb + 2 then v3 sprite dw off j else 0)

theorem rowMaskByte_at0 (xb : Nat) (need2 need3 : Bool) (sprite : List Nat)
    (dw : Bool) (off j : Nat) :
    rowMaskByte xb need2 need3 sprite dw off j xb = v1 sprite dw off j := by
  unfold rowMaskByte
  rw [if_pos rfl, if_neg (fun hh => by omega), if_neg (fun hh => by omega)]
  simp

theorem rowMaskByte_at1 (xb : Nat) (need2 need3 : Bool) (sprite : List Nat)
    (dw : Bool) (off j : Nat) (hn2 : need2 = true) :
    rowMaskByte xb need2 need3 sprite dw off j (xb + 1) = v2 sprite dw off j := by
  unfold rowMaskByte
  rw [if_neg (by omega), if_pos ⟨hn2, rfl⟩, if_neg (fun hh => by omega)]
  simp

theorem rowMaskByte_at2 (xb : Nat) (need2 need3 : Bool) (sprite : List Nat)
    (dw : Bool) (off j : Nat) (hn3 : need3 = true) :
    rowMaskByte xb need2 need3 sprite dw off j (xb + 2) = v3 sprite dw off j := by
  unfold rowMaskByte
  rw [if_neg (by omega), if_neg (fun hh => by omega), if_pos ⟨hn3, rfl⟩]
  simp

theorem rowMaskByte_other (xb : Nat) (need2 need3 : Bool) (sprite : List Nat)
    (dw : Bool) (off j c : Nat) (hc0 : c ≠ xb)
    (hc1 : need2 = true → c ≠ xb + 1) (hc2 : need3 = true → c ≠ xb + 2) :
    rowMaskByte xb need2 need3 sprite dw off j c = 0 := by
  unfold rowMaskByte
  rw [if_neg hc0, if_neg (fun hh => hc1 hh.1 hh.2),
    if_neg (fun hh => hc2 hh.1 hh.2)]
  simp

/-- The collision check of a row against a buffer holds exactly when some
    byte of the display row, masked against the sprite bits of that row,
    is non zero. -/
theorem rowHit_eq_mask (R y0 xb : Nat) (need2 need3 : Bool) (sprite : List Nat)
    (dw : Bool) (off : Nat) (hxb : xb < R)
    (h2 : need2 = true → xb + 1 < R) (h3 : need3 = true → xb + 2 < R)
    (px : List Nat) (j : Nat) :
    rowHit R y0 xb need2 need3 sprite dw off px j =
      decide (∃ c, c < R ∧
        byteAt px ((y0 + j) * R + c) &&&
          rowMaskByte xb need2 need3 sprite dw off j c ≠ 0) := by
  rw [Bool.eq_iff_iff]
  simp only [rowHit, Bool.or_eq_true, Bool.and_eq_true, decide_eq_true_eq]
  have e1 : (y0 + j) * R + (xb + 1) = (y0 + j) * R + xb + 1 := by omega
  have e2 : (y0 + j) * R + (xb + 2) = (y0 + j) * R + xb + 2 := by omega
  constructor
  · intro hca
    rcases hca with (hh | ⟨hn2, hh⟩) | ⟨hn3, hh⟩
    · exact ⟨xb, hxb, by rw [rowMaskByte_at0]; omega⟩
    · exact ⟨xb + 1, h2 hn2,
        by rw [rowMaskByte_at1 _ _ _ _ _ _ _ hn2, e1]; omega⟩
    · exact ⟨xb + 2, h3 hn3,
        by rw [rowMaskByte_at2 _ _ _ _ _ _ _ hn3, e2]; omega⟩
  · rintro ⟨c, hc, hne⟩
    by_cases hc0 : c = xb
    · subst hc0
      rw [rowMaskByte_at0] at hne
      exact Or.inl (Or.inl (by omega))
    · by_cases hc1 : need2 = true ∧ c = xb + 1
      · obtain ⟨hn2, hceq⟩ := hc1
        subst hceq
        rw [rowMaskByte_at1 _ _ _ _ _ _ _ hn2, e1] at hne
        exact Or.inl (Or.inr ⟨hn2, by omega⟩)
      · by_cases hc2 : need3 = true ∧ c = xb + 2
        · obtain ⟨hn3, hceq⟩ := hc2
          subst hceq
          rw [rowMaskByte_at2 _ _ _ _ _ _ _ hn3, e2] at hne
          exact Or.inr ⟨hn3, by omega⟩
        · rw [rowMaskByte_other xb need2 need3 sprite dw off j c hc0
            (fun ha hb => hc1 ⟨ha, hb⟩) (fun ha hb => hc2 ⟨ha, hb⟩)] at hne
          simp at hne

/-- The number of drawn sprite rows whose pixels are visible on the
    display d: rows whose sprite bit mask meets a set bit somewhere in the
    corresponding display row.  This is the count of rows of the drawn
    sprite that are non zero on d. -/
def litRowCount (d : Display) (x y : Nat) (sprite : List Nat) (dw : Bool) : Nat :=
  ((List.range (rowsToDraw d y sprite dw)).filter (fun j =>
    decide (∃ c, c < d.row_size_bytes ∧
      byteAt d.pixels ((y0Of d y + j) * d.row_size_bytes + c) &&&
        rowMaskByte (xByteOf d x) (need2Of d x dw) (need3Of d x dw)
          sprite dw (x % 8) j c ≠ 0))).length

/-- The pixel buffer a draw produces: the iterated row effects. -/
def drawnPixels (d : Display) (x y : Nat) (sprite : List Nat) (dw : Bool) :
    List Nat :=
  rowsApply d.row_size_bytes (y0Of d y) (xByteOf d x) (need2Of d x dw)
    (need3Of d x dw) sprite dw (x % 8) (rowsToDraw d y sprite dw) d.pixels

/-- The collision count a draw produces: the number of rows whose check
    fired against the buffer state current when that row was processed. -/
def drawHits (d : Display) (x y : Nat) (sprite : List Nat) (dw : Bool) : Nat :=
  ((List.range (rowsToDraw d y sprite dw)).filter (fun j =>
    rowHit d.row_size_bytes (y0Of d y) (xByteOf d x) (need2Of d x dw)
      (need3Of d x dw) sprite dw (x % 8)
      (rowsApply d.row_size_bytes (y0Of d y) (xByteOf d x) (need2Of d x dw)
        (need3Of d x dw) sprite dw (x % 8) j d.pixels) j)).length

/-- draw_sprite in closed form. -/
theorem draw_sprite_eq (d : Display) (x y : Nat) (sprite : List Nat) (dw : Bool) :
    draw_sprite d x y sprite dw =
      ({ d with pixels := drawnPixels d x y sprite dw },
        drawHits d x y sprite dw, 0) := by
  unfold draw_sprite drawnPixels drawHits
  dsimp only
  rw [fold_char]
  simp

/-- The byte column bounds of the draw context: the starting byte column
    is within the row, and when a second or third byte is used it is
    within the row as well. -/
theorem drawCtx_bounds (d : Display) (x : Nat) (dw : Bool)
    (hR : 0 < d.row_size_bytes) :
    xByteOf d x < d.row_size_bytes ∧
    (need2Of d x dw = true → xByteOf d x + 1 < d.row_size_bytes) ∧
    (need3Of d x dw = true → xByteOf d x + 2 < d.row_size_bytes) := by
  have hxb : xByteOf d x < d.row_size_bytes := Nat.mod_lt _ hR
  refine ⟨hxb, ?_, ?_⟩
  · intro hn2
    unfold need2Of at hn2
    cases dw with
    | false =>
      simp at hn2
      omega
    | true =>
      simp at hn2
      omega
  · intro hn3
    unfold need3Of at hn3
    cases dw with
    | false => simp at hn3
    | true =>
      simp at hn3
      omega

end Display

namespace Chip

open Display

/-- C5: for every well formed display, every coordinate pair and every
    sprite byte slice, drawing the same sprite at the same coordinates
    twice restores the pre draw buffer exactly (XOR self inverse), and the
    collision count returned by the second draw equals the number of drawn
    sprite rows that are non zero on the display after the first draw
    (litRowCount counts the rows of the drawn sprite whose bits meet a lit
    pixel of the buffer). -/
theorem draw_sprite_double_draw (d : Display) (x y : Nat) (sprite : List Nat)
    (dw : Bool) (h : d.WF) :
    (draw_sprite (draw_sprite d x y sprite dw).1 x y sprite dw).1 = d ∧
    (draw_sprite (draw_sprite d x y sprite dw).1 x y sprite dw).2.1 =
      litRowCount (draw_sprite d x y sprite dw).1 x y sprite dw := by
  obtain ⟨hlen, hdims⟩ := h
  have hR : 0 < d.row_size_bytes := by
    rcases hdims with ⟨h8, _⟩ | ⟨h16, _⟩ <;> omega
  obtain ⟨hxb, h2, h3⟩ := drawCtx_bounds d x dw hR
  obtain ⟨R, C, px⟩ := d
  simp only [xByteOf, need2Of, need3Of] at hxb h2 h3
  rw [draw_sprite_eq, draw_sprite_eq]
  dsimp only [drawnPixels, drawHits, litRowCount, y0Of, rowsToDraw, xByteOf,
    need2Of, need3Of, spriteHeight]
  constructor
  · rw [rowsApply_invol _ _ _ _ _ _ _ _ _ hxb h2 h3]
  · refine congrArg List.length (List.filter_congr fun j hj => ?_)
    rw [rowHit_rowsApply _ _ _ _ _ _ _ _ j j (Nat.le_refl j) hxb h2 h3,
      rowHit_eq_mask _ _ _ _ _ _ _ _ hxb h2 h3]

/-- Witness for C5 on a concrete 64 by 32 display with content and a two
    row sprite drawn unaligned. -/
theorem draw_sprite_double_draw_witness :
    Display.WF ⟨8, 32, (List.replicate 256 0).set 9 0xF0⟩ ∧
      ((draw_sprite (draw_sprite ⟨8, 32, (List.replicate 256 0).set 9 0xF0⟩
          13 1 [0xB6, 0xE3] false).1 13 1 [0xB6, 0xE3] false).1 =
        ⟨8, 32, (List.replicate 256 0).set 9 0xF0⟩ ∧
      (draw_sprite (draw_sprite ⟨8, 32, (List.replicate 256 0).set 9 0xF0⟩
          13 1 [0xB6, 0xE3] false).1 13 1 [0xB6, 0xE3] false).2.1 =
        litRowCount (draw_sprite ⟨8, 32, (List.replicate 256 0).set 9 0xF0⟩
          13 1 [0xB6, 0xE3] false).1 13 1 [0xB6, 0xE3] false) :=
  ⟨by decide,
    draw_sprite_double_draw ⟨8, 32, (List.replicate 256 0).set 9 0xF0⟩
      13 1 [0xB6, 0xE3] false (by decide)⟩

/-- C9: for every well formed display, clipping a sprite at the bottom
    edge reports zero clipped rows, the drawn row count never exceeds the
    rows that fit below the wrapped start row, and every display row
    outside the drawn band is untouched (so clipped rows are never wrapped
    to the top); concretely, an 8 by 2 pixel sprite drawn at the bottom
    row of a 64 by 32 display draws one row, reports one collision against
    a colliding preset pattern, and reports zero clipped rows. -/
theorem draw_sprite_clip :
    (∀ (d : Display) (x y : Nat) (sprite : List Nat) (dw : Bool), d.WF →
      (draw_sprite d x y sprite dw).2.2 = 0 ∧
      rowsToDraw d y sprite dw ≤ d.column_size_pixels - y0Of d y ∧
      (∀ r c, c < d.row_size_bytes →
        (r < y0Of d y ∨ y0Of d y + rowsToDraw d y sprite dw ≤ r) →
        byteAt (draw_sprite d x y sprite dw).1.pixels
            (r * d.row_size_bytes + c) =
          byteAt d.pixels (r * d.row_size_bytes + c))) ∧
    draw_sprite ⟨8, 32, (List.replicate 256 0).set 248 0x80⟩ 0 31
        [0x80, 0x80] false =
      (⟨8, 32, List.replicate 256 0⟩, 1, 0) := by
  constructor
  · intro d x y sprite dw h
    obtain ⟨hlen, hdims⟩ := h
    have hR : 0 < d.row_size_bytes := by
      rcases hdims with ⟨h8, _⟩ | ⟨h16, _⟩ <;> omega
    have hC : 0 < d.column_size_pixels := by
      rcases hdims with ⟨_, h32⟩ | ⟨_, h64⟩ <;> omega
    obtain ⟨hxb, h2, h3⟩ := drawCtx_bounds d x dw hR
    have hy0 : y0Of d y < d.column_size_pixels := Nat.mod_lt _ hC
    refine ⟨by rw [draw_sprite_eq], ?_, ?_⟩
    · unfold rowsToDraw
      rw [Nat.min_eq_right (Nat.le_of_lt hy0)]
      exact Nat.min_le_right _ _
    · intro r c hc hr
      have hband : rowsToDraw d y sprite dw ≤
          d.column_size_pixels - y0Of d y := by
        unfold rowsToDraw
        rw [Nat.min_eq_right (Nat.le_of_lt hy0)]
        exact Nat.min_le_right _ _
      obtain ⟨R, C, px⟩ := d
      simp only [xByteOf, need2Of, need3Of] at hxb h2 h3
      simp only [y0Of, rowsToDraw, spriteHeight] at hr hband
      rw [draw_sprite_eq]
      dsimp only [drawnPixels, y0Of, rowsToDraw, xByteOf, need2Of, need3Of,
        spriteHeight]
      exact byteAt_rowsApply_outside _ _ _ _ _ _ _ _ _ r c hc
        (fun j hj => by omega) hxb h2 h3 px
  · decide

/-- Witness for C9: the universal part applied to a concrete display, row
    and column outside the drawn band. -/
theorem draw_sprite_clip_witness :
    Display.WF ⟨8, 32, List.replicate 256 0⟩ ∧
      (0 : Nat) < 8 ∧
      byteAt (draw_sprite ⟨8, 32, List.replicate 256 0⟩ 3 30
          [0xFF, 0xFF, 0xFF] false).1.pixels (0 * 8 + 0) =
        byteAt (⟨8, 32, List.replicate 256 0⟩ : Display).pixels (0 * 8 + 0) :=
  ⟨by decide, by decide,
    (draw_sprite_clip.1 ⟨8, 32, List.replicate 256 0⟩ 3 30
      [0xFF, 0xFF, 0xFF] false (by decide)).2.2 0 0 (by decide)
      (Or.inl (by decide))⟩

end Chip

/-! ## Display scroll operations (src/display.rs lines 216 to 281) -/

namespace Display

/-- Display.clear: recreate the pixel array with all pixels off. -/
def clear (d : Display) : Display :=
  { d with pixels :=
      List.replicate (d.row_size_bytes * d.column_size_pixels) 0 }

/-- The inner loop of scroll_display_right: columns from high to low down
    to column 1, each combining its own high nibble shift with the low
    nibble of the byte to its left. -/
def scrollRightCols (px : List Nat) (base : Nat) : Nat → List Nat
  | 0 => px
  | k + 1 =>
    scrollRightCols
      (px.set (base + (k + 1))
        ((byteAt px (base + (k + 1)) >>> 4) |||
          ((byteAt px (base + k) <<< 4) % 256)))
      base k

/-- Display.scroll_display_right, src/display.rs lines 216 to 234. -/
def scroll_display_right (d : Display) : Except ErrorDetail Display :=
  let n := d.row_size_bytes
  .ok { d with pixels :=
    (List.range d.column_size_pixels).foldl (fun px row_index =>
      let px := scrollRightCols px (row_index * n) (n - 1)
      px.set (row_index * n) (byteAt px (row_index * n) >>> 4)) d.pixels }

/-- Display.scroll_display_left, src/display.rs lines 238 to 256: columns
    from low to high up to the penultimate one, then the last column
    shifts in zeros. -/
def scroll_display_left (d : Display) : Except ErrorDetail Display :=
  let n := d.row_size_bytes - 1
  .ok { d with pixels :=
    (List.range d.column_size_pixels).foldl (fun px row_index =>
      let px := (List.range n).foldl (fun px column_index =>
        px.set (row_index * d.row_size_bytes + column_index)
          (((byteAt px (row_index * d.row_size_bytes + column_index) <<< 4) % 256) |||
            (byteAt px (row_index * d.row_size_bytes + column_index + 1) >>> 4))) px
      px.set (row_index * d.row_size_bytes + n)
        ((byteAt px (row_index * d.row_size_bytes + n) <<< 4) % 256)) d.pixels }

/-- Copy count bytes from flat offset src to flat offset dst. -/
def copyRowBytes (px : List Nat) (src dst : Nat) : Nat → List Nat
  | 0 => px
  | k + 1 => copyRowBytes (px.set (dst + k) (byteAt px (src + k))) src dst k

/-- The downward row moves of scroll_display_down, from the bottom row up
    to row n. -/
def scrollDownRows (px : List Nat) (n R : Nat) : Nat → List Nat
  | 0 => px
  | k + 1 =>
    scrollDownRows
      (copyRowBytes px ((n + k - n) * R) ((n + k) * R) R) n R k

/-- Zero the count bytes from flat offset base. -/
def zeroBytes (px : List Nat) (base : Nat) : Nat → List Nat
  | 0 => px
  | k + 1 => zeroBytes (px.set (base + k) 0) base k

/-- Display.scroll_display_down, src/display.rs lines 264 to 281: copy
    each row from the row n above it, bottom up, then zero the top n
    rows. -/
def scroll_display_down (d : Display) (n : Nat) : Except ErrorDetail Display :=
  let px := scrollDownRows d.pixels n d.row_size_bytes
    (d.column_size_pixels - n)
  .ok { d with pixels :=
    (List.range n).foldl (fun px row_index =>
      zeroBytes px (row_index * d.row_size_bytes) d.row_size_bytes) px }

end Display

/-! ## Font (src/font.rs) -/

structure Font where
  char_size : Nat
  font_data : List Nat
  deriving DecidableEq, Repr

namespace Font

/-- Font.default_low_resolution: the 16 five byte CHIP-8 glyphs. -/
def default_low_resolution : Font :=
  { char_size := 5,
    font_data := [
      0xF0, 0x90, 0x90, 0x90, 0xF0,
      0x20, 0x60, 0x20, 0x20, 0x70,
      0xF0, 0x10, 0xF0, 0x80, 0xF0,
      0xF0, 0x10, 0xF0, 0x10, 0xF0,
      0x90, 0x90, 0xF0, 0x10, 0x10,
      0xF0, 0x80, 0xF0, 0x10, 0xF0,
      0xF0, 0x80, 0xF0, 0x90, 0xF0,
      0xF0, 0x10, 0x20, 0x40, 0x40,
      0xF0, 0x90, 0xF0, 0x90, 0xF0,
      0xF0, 0x90, 0xF0, 0x10, 0xF0,
      0xF0, 0x90, 0xF0, 0x90, 0x90,
      0xE0, 0x90, 0xE0, 0x90, 0xE0,
      0xF0, 0x80, 0x80, 0x80, 0xF0,
      0xE0, 0x90, 0x90, 0x90, 0xE0,
      0xF0, 0x80, 0xF0, 0x80, 0xF0,
      0xF0, 0x80, 0xF0, 0x80, 0x80] }

/-- Font.default_high_resolution: the 10 ten byte SUPER-CHIP glyphs. -/
def default_high_resolution : Font :=
  { char_size := 10,
    font_data := [
      0x3C, 0x7E, 0xC3, 0xC3, 0xC3, 0xC3, 0xC3, 0xC3, 0x7E, 0x3C,
      0x18, 0x38, 0x58, 0x18, 0x18, 0x18, 0x18, 0x18, 0x18, 0x3C,
      0x3E, 0x7F, 0xC3, 0x06, 0x0C, 0x18, 0x30, 0x60, 0xFF, 0xFF,
      0x3C, 0x7E, 0xC3, 0x03, 0x0E, 0x0E, 0x03, 0xC3, 0x7E, 0x3C,
      0x06, 0x0E, 0x1E, 0x36, 0x66, 0xC6, 0xFF, 0xFF, 0x06, 0x06,
      0xFF, 0xFF, 0xC0, 0xC0, 0xFC, 0xFE, 0x03, 0xC3, 0x7E, 0x3C,
      0x3E, 0x7C, 0xC0, 0xC0, 0xFC, 0xFE, 0xC3, 0xC3, 0x7E, 0x3C,
      0xFF, 0xFF, 0x03, 0x06, 0x0C, 0x18, 0x30, 0x60, 0x60, 0x60,
      0x3C, 0x7E, 0xC3, 0xC3, 0x7E, 0x7E, 0xC3, 0xC3, 0x7E, 0x3C,
      0x3C, 0x7E, 0xC3, 0xC3, 0x7F, 0x3F, 0x03, 0x03, 0x3E, 0x7C] }

/-- Font.font_data_size: length of the data vector. -/
def font_data_size (f : Font) : Nat := f.font_data.length

end Font

/-! ## Processor state (src/processor.rs)

The two Instant fields of the Rust struct (the last timer decrement and
the last cycle completion moment) drive only wall clock behaviour; they
are replaced by the timer_due oracle argument of execute_cycle.  The
processor_speed_hertz field only paces the spin wait and the program and
font configuration fields are only used by initialisation, so they are
not part of the model. -/

inductive ProcessorStatus where
  | StartingUp
  | Initialised
  | ProgramLoaded
  | Running
  | WaitingForKeypress
  | Crashed
  | Completed
  deriving DecidableEq, Repr

structure Processor where
  frame_buffer : Display
  stack : Stack
  memory : Memory
  program_counter : Nat
  index_register : Nat
  variable_registers : List Nat
  rpl_registers : List Nat
  delay_timer : Nat
  sound_timer : Nat
  cycles : Nat
  keystate : KeyState
  status : ProcessorStatus
  low_resolution_font : Font
  high_resolution_font : Option Font
  font_start_address : Nat
  high_resolution_font_start_address : Nat
  high_resolution_mode : Bool
  emulation_level : EmulationLevel
  deriving DecidableEq, Repr

/-- The random draws a cycle may consume: the random byte of CXNN and the
    two extra cycle counts of the randomised DXYN timing. -/
structure Rand where
  rand_byte : Nat
  extra_execute_cycles : Nat
  extra_idle_cycles : Nat
  deriving DecidableEq, Repr

/-- Handler outcome: none models a Rust panic (an unwrap of an error); a
    value carries the result (the consumed machine cycles or the error)
    together with the processor state, mirroring the mutable receiver. -/
def HResult : Type := Option ((Except ErrorDetail Nat) × Processor)

def hok (cycles : Nat) (p : Processor) : HResult := some (.ok cycles, p)

def herr (e : ErrorDetail) (p : Processor) : HResult := some (.error e, p)

namespace Processor

/-- Read general register i. -/
def vr (p : Processor) (i : Nat) : Nat := byteAt p.variable_registers i

/-- Write general register i. -/
def setVr (p : Processor) (i v : Nat) : Processor :=
  { p with variable_registers := p.variable_registers.set i v }

/-! ### Per instruction handlers (src/processor/execute.rs)

Each handler mirrors its Rust counterpart, returning the consumed machine
cycle count or the error, together with the successor processor state. -/

/-- execute_004B, src/processor/execute.rs lines 6 to 9. -/
def execute_004B (p : Processor) : HResult :=
  herr (.UnimplementedInstruction 0x004B) p

/-- execute_00CN, src/processor/execute.rs lines 14 to 25. -/
def execute_00CN (p : Processor) (n : Nat) : HResult :=
  match p.emulation_level with
  | .SuperChip11 _ =>
    match p.frame_buffer.scroll_display_down n with
    | .error e => herr e p
    | .ok d => hok 0 { p with frame_buffer := d }
  | .Chip8 _ _ | .Chip48 => herr (.UnknownInstruction (0x00C0 ||| n)) p

/-- execute_00E0, src/processor/execute.rs lines 29 to 33. -/
def execute_00E0 (p : Processor) : HResult :=
  hok 64 { p with frame_buffer := p.frame_buffer.clear }

/-- execute_00EE, src/processor/execute.rs lines 37 to 42. -/
def execute_00EE (p : Processor) : HResult :=
  match p.stack.pop with
  | .error e => herr e p
  | .ok (address, st) =>
    hok 50 { p with stack := st, program_counter := address }

/-- execute_00FB, src/processor/execute.rs lines 47 to 57. -/
def execute_00FB (p : Processor) : HResult :=
  match p.emulation_level with
  | .SuperChip11 _ =>
    match p.frame_buffer.scroll_display_right with
    | .error e => herr e p
    | .ok d => hok 0 { p with frame_buffer := d }
  | .Chip8 _ _ | .Chip48 => herr (.UnknownInstruction 0x00FB) p

/-- execute_00FC, src/processor/execute.rs lines 62 to 72. -/
def execute_00FC (p : Processor) : HResult :=
  match p.emulation_level with
  | .SuperChip11 _ =>
    match p.frame_buffer.scroll_display_left with
    | .error e => herr e p
    | .ok d => hok 0 { p with frame_buffer := d }
  | .Chip8 _ _ | .Chip48 => herr (.UnknownInstruction 0x00FC) p

/-- execute_00FD, src/processor/execute.rs lines 77 to 87. -/
def execute_00FD (p : Processor) : HResult :=
  match p.emulation_level with
  | .SuperChip11 _ => hok 0 { p with status := .Completed }
  | .Chip8 _ _ | .Chip48 => herr (.UnknownInstruction 0x00FD) p

/-- execute_00FE, src/processor/execute.rs lines 92 to 102. -/
def execute_00FE (p : Processor) : HResult :=
  match p.emulation_level with
  | .SuperChip11 _ => hok 0 { p with high_resolution_mode := false }
  | .Chip8 _ _ | .Chip48 => herr (.UnknownInstruction 0x00FE) p

/-- execute_00FF, src/processor/execute.rs lines 107 to 117. -/
def execute_00FF (p : Processor) : HResult :=
  match p.emulation_level with
  | .SuperChip11 _ => hok 0 { p with high_resolution_mode := true }
  | .Chip8 _ _ | .Chip48 => herr (.UnknownInstruction 0x00FF) p

/-- execute_0NNN, src/processor/execute.rs lines 121 to 123. -/
def execute_0NNN (p : Processor) (nnn : Nat) : HResult :=
  herr (.UnimplementedInstruction nnn) p

/-- execute_1NNN, src/processor/execute.rs lines 127 to 131. -/
def execute_1NNN (p : Processor) (nnn : Nat) : HResult :=
  hok 80 { p with program_counter := nnn }

/-- execute_2NNN, src/processor/execute.rs lines 135 to 140. -/
def execute_2NNN (p : Processor) (nnn : Nat) : HResult :=
  match p.stack.push p.program_counter with
  | .error e => herr e p
  | .ok st => hok 94 { p with stack := st, program_counter := nnn }

/-- execute_3XNN, src/processor/execute.rs lines 144 to 160. -/
def execute_3XNN (p : Processor) (x : Nat) (nn : Nat) : HResult :=
  if x ≥ 16 then herr (.OperandsOutOfBounds [("x", x)]) p
  else if p.vr x = nn then
    hok 82 { p with program_counter := (p.program_counter + 2) % 65536 }
  else hok 78 p

/-- execute_4XNN, src/processor/execute.rs lines 164 to 180. -/
def execute_4XNN (p : Processor) (x : Nat) (nn : Nat) : HResult :=
  if x ≥ 16 then herr (.OperandsOutOfBounds [("x", x)]) p
  else if p.vr x ≠ nn then
    hok 82 { p with program_counter := (p.program_counter + 2) % 65536 }
  else hok 78 p

/-- execute_5XY0, src/processor/execute.rs lines 184 to 201. -/
def execute_5XY0 (p : Processor) (x y : Nat) : HResult :=
  if x ≥ 16 ∨ y ≥ 16 then
    herr (.OperandsOutOfBounds [("x", x), ("y", y)]) p
  else if p.vr x = p.vr y then
    hok 86 { p with program_counter := (p.program_counter + 2) % 65536 }
  else hok 82 p

/-- execute_6XNN, src/processor/execute.rs lines 205 to 214. -/
def execute_6XNN (p : Processor) (x : Nat) (nn : Nat) : HResult :=
  if x ≥ 16 then herr (.OperandsOutOfBounds [("x", x)]) p
  else hok 74 (p.setVr x nn)

/-- execute_7XNN, src/processor/execute.rs lines 218 to 229. -/
def execute_7XNN (p : Processor) (x : Nat) (nn : Nat) : HResult :=
  if x ≥ 16 then herr (.OperandsOutOfBounds [("x", x)]) p
  else hok 78 (p.setVr x ((p.vr x + nn) &&& 0xFF))

/-- execute_8XY0, src/processor/execute.rs lines 233 to 243. -/
def execute_8XY0 (p : Processor) (x y : Nat) : HResult :=
  if x ≥ 16 ∨ y ≥ 16 then
    herr (.OperandsOutOfBounds [("x", x), ("y", y)]) p
  else hok 80 (p.setVr x (p.vr y))

/-- execute_8XY1, src/processor/execute.rs lines 247 to 261; the base
    variant additionally zeroes the flag register. -/
def execute_8XY1 (p : Processor) (x y : Nat) : HResult :=
  if x ≥ 16 ∨ y ≥ 16 then
    herr (.OperandsOutOfBounds [("x", x), ("y", y)]) p
  else
    let p := p.setVr x (p.vr x ||| p.vr y)
    match p.emulation_level with
    | .Chip8 _ _ => hok 112 (p.setVr 0xF 0)
    | _ => hok 112 p

/-- execute_8XY2, src/processor/execute.rs lines 265 to 279. -/
def execute_8XY2 (p : Processor) (x y : Nat) : HResult :=
  if x ≥ 16 ∨ y ≥ 16 then
    herr (.OperandsOutOfBounds [("x", x), ("y", y)]) p
  else
    let p := p.setVr x (p.vr x &&& p.vr y)
    match p.emulation_level with
    | .Chip8 _ _ => hok 112 (p.setVr 0xF 0)
    | _ => hok 112 p

/-- execute_8XY3, src/processor/execute.rs lines 283 to 297. -/
def execute_8XY3 (p : Processor) (x y : Nat) : HResult :=
  if x ≥ 16 ∨ y ≥ 16 then
    herr (.OperandsOutOfBounds [("x", x), ("y", y)]) p
  else
    let p := p.setVr x (p.vr x ^^^ p.vr y)
    match p.emulation_level with
    | .Chip8 _ _ => hok 112 (p.setVr 0xF 0)
    | _ => hok 112 p

/-- execute_8XY4, src/processor/execute.rs lines 301 to 319: the flag is
    written before the sum. -/
def execute_8XY4 (p : Processor) (x y : Nat) : HResult :=
  if x ≥ 16 ∨ y ≥ 16 then
    herr (.OperandsOutOfBounds [("x", x), ("y", y)]) p
  else
    let result := p.vr x + p.vr y
    let p := p.setVr 0xF (if result > 0xFF then 1 else 0)
    hok 112 (p.setVr x (result &&& 0xFF))

/-- execute_8XY5, src/processor/execute.rs lines 323 to 341: signed
    subtraction with the low byte of the two complement result kept. -/
def execute_8XY5 (p : Processor) (x y : Nat) : HResult :=
  if x ≥ 16 ∨ y ≥ 16 then
    herr (.OperandsOutOfBounds [("x", x), ("y", y)]) p
  else
    let result : Int := (p.vr x : Int) - (p.vr y : Int)
    let p := p.setVr 0xF (if result < 0 then 0 else 1)
    hok 112 (p.setVr x (result % 256).toNat)

/-- execute_8XY6, src/processor/execute.rs lines 346 to 369: the base
    variant first copies the second operand register into the
    destination; the flag receives the shifted out low bit and is written
    after the shift. -/
def execute_8XY6 (p : Processor) (x y : Nat) : HResult :=
  if x ≥ 16 ∨ y ≥ 16 then
    herr (.OperandsOutOfBounds [("x", x), ("y", y)]) p
  else
    let p := match p.emulation_level with
      | .Chip8 _ _ => p.setVr x (p.vr y)
      | .Chip48 | .SuperChip11 _ => p
    let flag_value := if p.vr x &&& 0x01 = 0x01 then 1 else 0
    let p := p.setVr x (p.vr x >>> 1)
    hok 112 (p.setVr 0xF flag_value)

/-- execute_8XY7, src/processor/execute.rs lines 373 to 391. -/
def execute_8XY7 (p : Processor) (x y : Nat) : HResult :=
  if x ≥ 16 ∨ y ≥ 16 then
    herr (.OperandsOutOfBounds [("x", x), ("y", y)]) p
  else
    let result : Int := (p.vr y : Int) - (p.vr x : Int)
    let p := p.setVr 0xF (if result < 0 then 0 else 1)
    hok 112 (p.setVr x (result % 256).toNat)

/-- execute_8XYE, src/processor/execute.rs lines 396 to 419: the base
    variant first copies the second operand register into the
    destination; the flag receives the shifted out high bit and is
    written after the shift. -/
def execute_8XYE (p : Processor) (x y : Nat) : HResult :=
  if x ≥ 16 ∨ y ≥ 16 then
    herr (.OperandsOutOfBounds [("x", x), ("y", y)]) p
  else
    let p := match p.emulation_level with
      | .Chip8 _ _ => p.setVr x (p.vr y)
      | .Chip48 | .SuperChip11 _ => p
    let flag_value := if p.vr x &&& 0x80 = 0x80 then 1 else 0
    let p := p.setVr x ((p.vr x <<< 1) % 256)
    hok 112 (p.setVr 0xF flag_value)

/-- execute_9XY0, src/processor/execute.rs lines 423 to 439. -/
def execute_9XY0 (p : Processor) (x y : Nat) : HResult :=
  if x ≥ 16 ∨ y ≥ 16 then
    herr (.OperandsOutOfBounds [("x", x), ("y", y)]) p
  else if p.vr x ≠ p.vr y then
    hok 86 { p with program_counter := (p.program_counter + 2) % 65536 }
  else hok 82 p

/-- execute_ANNN, src/processor/execute.rs lines 443 to 447. -/
def execute_ANNN (p : Processor) (nnn : Nat) : HResult :=
  hok 80 { p with index_register := nnn }

/-- execute_BNNN, src/processor/execute.rs lines 452 to 476: the page
    boundary check always uses register V0; the jump target uses V0 in
    the base variant and the register picked by the high operand nibble
    otherwise. -/
def execute_BNNN (p : Processor) (nnn : Nat) : HResult :=
  let page_boundary_crossed :=
    ((nnn + p.vr 0) &&& 0xF00) ≠ (p.program_counter &&& 0xF00)
  let p := match p.emulation_level with
    | .Chip8 _ _ => { p with program_counter := nnn + p.vr 0 }
    | .Chip48 | .SuperChip11 _ =>
      { p with program_counter := nnn + p.vr ((nnn &&& 0x0F00) >>> 8) }
  if page_boundary_crossed then hok 92 p else hok 90 p

/-- execute_CXNN, src/processor/execute.rs lines 480 to 493: the random
    byte is the rand_byte oracle. -/
def execute_CXNN (p : Processor) (x : Nat) (nn : Nat) (rand : Rand) : HResult :=
  if x ≥ 16 then herr (.OperandsOutOfBounds [("x", x)]) p
  else hok 104 (p.setVr x (nn &&& rand.rand_byte))

/-- Processor.duplicate_bits, src/processor/execute.rs lines 621 to 629:
    duplicate each bit of a byte into an adjacent bit pair, returning the
    high and low result bytes. -/
def duplicate_bits (byte : Nat) : Nat × Nat :=
  let y := byte
  let y := (y ||| (y <<< 4)) &&& 0x0F0F
  let y := (y ||| (y <<< 2)) &&& 0x3333
  let y := (y ||| (y <<< 1)) &&& 0x5555
  let y := y ||| (y <<< 1)
  ((y >>> 8) % 256, y &&& 0xFF)

/-- The private execute_DXYN_chip8, src/processor/execute.rs lines 525 to
    561: the extra execute and idle cycles are the rand oracle fields
    (gen_range draws in the source). -/
def execute_DXYN_chip8 (p : Processor) (x y : Nat) (n : Nat) (rand : Rand) :
    HResult :=
  match p.memory.read_bytes p.index_register n with
  | .error e => herr e p
  | .ok sprite =>
    let res := p.frame_buffer.draw_sprite (p.vr x) (p.vr y) sprite false
    let p := { p with frame_buffer := res.1 }
    let rows_with_collisions := res.2.1
    let rows_clipped := res.2.2
    let p := match p.emulation_level, p.high_resolution_mode with
      | .SuperChip11 _, true =>
        p.setVr 0xF (rows_with_collisions + rows_clipped)
      | _, _ => p.setVr 0xF (if rows_with_collisions > 0 then 0x1 else 0x0)
    hok (68 + 170 + 2355 + rand.extra_execute_cycles + rand.extra_idle_cycles) p

/-- The private execute_DXYN_superchip11_low_res, src/processor/execute.rs
    lines 564 to 617: every pixel of the sprite is exploded to a 2 by 2
    block and drawn as two adjacent sprites, the right one clipped when it
    would wrap. -/
def execute_DXYN_superchip11_low_res (p : Processor) (x y : Nat) (n : Nat) :
    HResult :=
  match p.memory.read_bytes p.index_register n with
  | .error e => herr e p
  | .ok sprite =>
    let sprite_left := sprite.foldr (fun byte acc =>
      (duplicate_bits byte).1 :: (duplicate_bits byte).1 :: acc) []
    let sprite_right := sprite.foldr (fun byte acc =>
      (duplicate_bits byte).2 :: (duplicate_bits byte).2 :: acc) []
    let resL := p.frame_buffer.draw_sprite (p.vr x * 2) (p.vr y * 2)
      sprite_left false
    let p := { p with frame_buffer := resL.1 }
    let rows_with_collisions_left := resL.2.1
    if ((p.vr x * 2 / 8) + 1) % p.frame_buffer.row_size_bytes ≠ 0 then
      let resR := p.frame_buffer.draw_sprite (p.vr x * 2 + 8) (p.vr y * 2)
        sprite_right false
      let p := { p with frame_buffer := resR.1 }
      let rows_with_collisions_right := resR.2.1
      hok 0 (p.setVr 0xF
        (if rows_with_collisions_left + rows_with_collisions_right > 0
          then 0x1 else 0x0))
    else
      hok 0 (p.setVr 0xF
        (if rows_with_collisions_left + 0 > 0 then 0x1 else 0x0))

/-- The private execute_DXY0_superchip11, src/processor/execute.rs lines
    633 to 647: a 32 byte double width sprite; the flag receives the sum
    of colliding and clipped rows. -/
def execute_DXY0_superchip11 (p : Processor) (x y : Nat) : HResult :=
  match p.memory.read_bytes p.index_register 32 with
  | .error e => herr e p
  | .ok sprite =>
    let res := p.frame_buffer.draw_sprite (p.vr x) (p.vr y) sprite true
    let p := { p with frame_buffer := res.1 }
    hok 0 (p.setVr 0xF (res.2.1 + res.2.2))

/-- execute_DXYN, src/processor/execute.rs lines 502 to 522. -/
def execute_DXYN (p : Processor) (x y : Nat) (n : Nat) (rand : Rand) :
    HResult :=
  if x ≥ 16 ∨ y ≥ 16 ∨ n > 15 then
    herr (.OperandsOutOfBounds [("x", x), ("y", y), ("n", n)]) p
  else
    match p.emulation_level with
    | .Chip8 _ _ | .Chip48 => execute_DXYN_chip8 p x y n rand
    | .SuperChip11 _ =>
      match p.high_resolution_mode, n with
      | true, 0 => execute_DXY0_superchip11 p x y
      | true, _ => execute_DXYN_chip8 p x y n rand
      | false, _ => execute_DXYN_superchip11_low_res p x y n

/-- execute_EX9E, src/processor/execute.rs lines 651 to 670: on a pressed
    key the program counter skips and the key is reset to unpressed. -/
def execute_EX9E (p : Processor) (x : Nat) : HResult :=
  if x ≥ 16 then herr (.OperandsOutOfBounds [("x", x)]) p
  else
    let key := p.vr x
    match p.keystate.is_key_pressed key with
    | .error e => herr e p
    | .ok key_pressed =>
      if key_pressed then
        let p := { p with program_counter := (p.program_counter + 2) % 65536 }
        match p.keystate.set_key_status key false with
        | .error e => herr e p
        | .ok ks => hok 86 { p with keystate := ks }
      else hok 82 p

/-- execute_EXA1, src/processor/execute.rs lines 674 to 693: on an
    unpressed key the program counter skips; on a pressed key it does not
    skip and the key is reset to unpressed. -/
def execute_EXA1 (p : Processor) (x : Nat) : HResult :=
  if x ≥ 16 then herr (.OperandsOutOfBounds [("x", x)]) p
  else
    let key := p.vr x
    match p.keystate.is_key_pressed key with
    | .error e => herr e p
    | .ok key_pressed =>
      if !key_pressed then
        hok 86 { p with program_counter := (p.program_counter + 2) % 65536 }
      else
        match p.keystate.set_key_status key false with
        | .error e => herr e p
        | .ok ks => hok 82 { p with keystate := ks }

/-- execute_FX07, src/processor/execute.rs lines 697 to 706. -/
def execute_FX07 (p : Processor) (x : Nat) : HResult :=
  if x ≥ 16 then herr (.OperandsOutOfBounds [("x", x)]) p
  else hok 78 (p.setVr x p.delay_timer)

/-- execute_FX0A, src/processor/execute.rs lines 710 to 733: when some
    key is currently pressed the first pressed ordinal is stored and the
    status set to Running; otherwise the program counter is rewound by
    one opcode and the status becomes WaitingForKeypress. -/
def execute_FX0A (p : Processor) (x : Nat) : HResult :=
  if x ≥ 16 then herr (.OperandsOutOfBounds [("x", x)]) p
  else
    match p.keystate.get_keys_pressed with
    | some keys_pressed =>
      let p := p.setVr x (byteAt keys_pressed 0)
      hok 19072 { p with status := .Running }
    | none =>
      hok 19072 { p with
        program_counter := p.program_counter - 2
        status := .WaitingForKeypress }

/-- execute_FX15, src/processor/execute.rs lines 737 to 746. -/
def execute_FX15 (p : Processor) (x : Nat) : HResult :=
  if x ≥ 16 then herr (.OperandsOutOfBounds [("x", x)]) p
  else hok 78 { p with delay_timer := p.vr x }

/-- execute_FX18, src/processor/execute.rs lines 750 to 759. -/
def execute_FX18 (p : Processor) (x : Nat) : HResult :=
  if x ≥ 16 then herr (.OperandsOutOfBounds [("x", x)]) p
  else hok 78 { p with sound_timer := p.vr x }

/-- execute_FX1E, src/processor/execute.rs lines 763 to 792. -/
def execute_FX1E (p : Processor) (x : Nat) : HResult :=
  if x < 16 then
    let result := p.index_register + p.vr x
    if result ≤ 0xFFFF then
      let p := p.setVr 0xF
        (if result ≤ p.memory.max_addressable_size then 0 else 1)
      let page_boundary_crossed :=
        (result &&& 0xF00) ≠ (p.index_register &&& 0xF00)
      let p := { p with index_register := result }
      if page_boundary_crossed then hok 92 p else hok 84 p
    else herr (.OperandsOutOfBounds [("x", x)]) p
  else herr (.OperandsOutOfBounds [("x", x)]) p

/-- execute_FX29, src/processor/execute.rs lines 796 to 818: point the
    index register at the low resolution glyph of the character in Vx. -/
def execute_FX29 (p : Processor) (x : Nat) : HResult :=
  if x ≥ 16 then herr (.OperandsOutOfBounds [("x", x)]) p
  else
    let character := p.vr x
    let font := p.low_resolution_font
    if character ≥ font.font_data_size / font.char_size then
      herr (.OperandsOutOfBounds [("character", character)]) p
    else
      hok 88 { p with index_register :=
        (character * font.char_size + p.font_start_address) % 65536 }

/-- execute_FX30, src/processor/execute.rs lines 823 to 852: the high
    resolution font is unwrapped, so its absence is a panic. -/
def execute_FX30 (p : Processor) (x : Nat) : HResult :=
  match p.emulation_level with
  | .SuperChip11 _ =>
    if x ≥ 16 then herr (.OperandsOutOfBounds [("x", x)]) p
    else
      match p.high_resolution_font with
      | none => none
      | some font =>
        let character := p.vr x
        if character ≥ font.font_data_size / font.char_size then
          herr (.OperandsOutOfBounds [("character", character)]) p
        else
          hok 0 { p with index_register :=
            (character * font.char_size +
              p.high_resolution_font_start_address) % 65536 }
  | .Chip8 _ _ | .Chip48 =>
    herr (.UnknownInstruction (0xF030 ||| (x <<< 8))) p

/-- execute_FX33, src/processor/execute.rs lines 856 to 876: the three
    decimal digits are written in sequence, so an error on a later write
    leaves the earlier writes in place. -/
def execute_FX33 (p : Processor) (x : Nat) : HResult :=
  if x ≥ 16 then herr (.OperandsOutOfBounds [("x", x)]) p
  else
    let hex_number := p.vr x
    let decimal_first_digit := hex_number / 100
    let decimal_second_digit := (hex_number % 100) / 10
    let decimal_third_digit := hex_number % 10
    let index := p.index_register
    match p.memory.write_byte index decimal_first_digit with
    | .error e => herr e p
    | .ok m1 =>
      match m1.write_byte (index + 1) decimal_second_digit with
      | .error e => herr e { p with memory := m1 }
      | .ok m2 =>
        match m2.write_byte (index + 2) decimal_third_digit with
        | .error e => herr e { p with memory := m2 }
        | .ok m3 =>
          hok (152 + 16 * (decimal_first_digit + decimal_second_digit +
            decimal_third_digit)) { p with memory := m3 }

/-- execute_FX55, src/processor/execute.rs lines 883 to 911: the index
    register auto increments by x + 1 in the base variant, by x for
    Chip48, and not at all for SuperChip11; the memory write always uses
    the original index register value as its base. -/
def execute_FX55 (p : Processor) (x : Nat) : HResult :=
  if x ≥ 16 then herr (.OperandsOutOfBounds [("x", x)]) p
  else
    let original_index_register := p.index_register
    let p := match p.emulation_level with
      | .Chip8 _ _ =>
        { p with index_register := (original_index_register + x + 1) % 65536 }
      | .Chip48 =>
        { p with index_register := (original_index_register + x) % 65536 }
      | .SuperChip11 _ => p
    match p.memory.write_bytes original_index_register
        (p.variable_registers.take (x + 1)) with
    | .error e => herr e p
    | .ok m => hok (86 + 14 * (x + 1)) { p with memory := m }

/-- The ascending register load loop of execute_FX65; a failing memory
    read is unwrapped in the source, hence a panic. -/
def loadRegsLoop (original : Nat) : Nat → Nat → Processor → Option Processor
  | _, 0, p => some p
  | i, k + 1, p =>
    match p.memory.read_byte (original + i) with
    | .error _ => none
    | .ok v => loadRegsLoop original (i + 1) k (p.setVr i v)

/-- execute_FX65, src/processor/execute.rs lines 918 to 949: the same
    per variant index register auto increment as the block store; the
    reads use the original index register value as their base. -/
def execute_FX65 (p : Processor) (x : Nat) : HResult :=
  if x ≥ 16 then herr (.OperandsOutOfBounds [("x", x)]) p
  else
    let original_index_register := p.index_register
    let p := match p.emulation_level with
      | .Chip8 _ _ =>
        { p with index_register := (original_index_register + x + 1) % 65536 }
      | .Chip48 =>
        { p with index_register := (original_index_register + x) % 65536 }
      | .SuperChip11 _ => p
    match loadRegsLoop original_index_register 0 (x + 1) p with
    | none => none
    | some p => hok (86 + 14 * (x + 1)) p

/-- execute_FX75, src/processor/execute.rs lines 954 to 971. -/
def execute_FX75 (p : Processor) (x : Nat) : HResult :=
  match p.emulation_level with
  | .SuperChip11 _ =>
    if x ≥ 8 then herr (.OperandsOutOfBounds [("x", x)]) p
    else
      hok 0 { p with rpl_registers :=
        (p.variable_registers.take (x + 1)) ++ p.rpl_registers.drop (x + 1) }
  | .Chip8 _ _ | .Chip48 =>
    herr (.UnknownInstruction (0xF075 ||| (x <<< 8))) p

/-- execute_FX85, src/processor/execute.rs lines 976 to 993. -/
def execute_FX85 (p : Processor) (x : Nat) : HResult :=
  match p.emulation_level with
  | .SuperChip11 _ =>
    if x ≥ 8 then herr (.OperandsOutOfBounds [("x", x)]) p
    else
      hok 0 { p with variable_registers :=
        (p.rpl_registers.take (x + 1)) ++ p.variable_registers.drop (x + 1) }
  | .Chip8 _ _ | .Chip48 =>
    herr (.UnknownInstruction (0xF085 ||| (x <<< 8))) p

/-- Processor.decrement_timers, src/processor.rs lines 294 to 311: the
    wall clock comparison against the decrement interval is abstracted as
    the boolean timer_due. -/
def decrement_timers (p : Processor) (timer_due : Bool) : Processor :=
  if (p.delay_timer ||| p.sound_timer) > 0 then
    if timer_due then
      { p with
        delay_timer := if p.delay_timer > 0 then p.delay_timer - 1
          else p.delay_timer
        sound_timer := if p.sound_timer > 0 then p.sound_timer - 1
          else p.sound_timer }
    else p
  else p

/-- Processor.execute, src/processor.rs lines 327 to 365: each decoded
    instruction variant is dispatched to its handler; the dispatch is
    completed over the full instruction set of src/processor/execute.rs,
    whose handlers are the ones the repository tests exercise. -/
def execute (p : Processor) (instr : Instruction) (rand : Rand) : HResult :=
  match instr with
  | .Op004B => p.execute_004B
  | .Op00CN n => p.execute_00CN n
  | .Op00E0 => p.execute_00E0
  | .Op00EE => p.execute_00EE
  | .Op00FB => p.execute_00FB
  | .Op00FC => p.execute_00FC
  | .Op00FD => p.execute_00FD
  | .Op00FE => p.execute_00FE
  | .Op00FF => p.execute_00FF
  | .Op0NNN nnn => p.execute_0NNN nnn
  | .Op1NNN nnn => p.execute_1NNN nnn
  | .Op2NNN nnn => p.execute_2NNN nnn
  | .Op3XNN x nn => p.execute_3XNN x nn
  | .Op4XNN x nn => p.execute_4XNN x nn
  | .Op5XY0 x y => p.execute_5XY0 x y
  | .Op6XNN x nn => p.execute_6XNN x nn
  | .Op7XNN x nn => p.execute_7XNN x nn
  | .Op8XY0 x y => p.execute_8XY0 x y
  | .Op8XY1 x y => p.execute_8XY1 x y
  | .Op8XY2 x y => p.execute_8XY2 x y
  | .Op8XY3 x y => p.execute_8XY3 x y
  | .Op8XY4 x y => p.execute_8XY4 x y
  | .Op8XY5 x y => p.execute_8XY5 x y
  | .Op8XY6 x y => p.execute_8XY6 x y
  | .Op8XY7 x y => p.execute_8XY7 x y
  | .Op8XYE x y => p.execute_8XYE x y
  | .Op9XY0 x y => p.execute_9XY0 x y
  | .OpANNN nnn => p.execute_ANNN nnn
  | .OpBNNN nnn => p.execute_BNNN nnn
  | .OpCXNN x nn => p.execute_CXNN x nn rand
  | .OpDXYN x y n => p.execute_DXYN x y n rand
  | .OpEX9E x => p.execute_EX9E x
  | .OpEXA1 x => p.execute_EXA1 x
  | .OpFX07 x => p.execute_FX07 x
  | .OpFX15 x => p.execute_FX15 x
  | .OpFX18 x => p.execute_FX18 x
  | .OpFX1E x => p.execute_FX1E x
  | .OpFX0A x => p.execute_FX0A x
  | .OpFX29 x => p.execute_FX29 x
  | .OpFX30 x => p.execute_FX30 x
  | .OpFX33 x => p.execute_FX33 x
  | .OpFX55 x => p.execute_FX55 x
  | .OpFX65 x => p.execute_FX65 x
  | .OpFX75 x => p.execute_FX75 x
  | .OpFX85 x => p.execute_FX85 x

/-- Processor.execute_cycle, src/processor.rs lines 244 to 290: one
    fetch, decode and execute iteration. The status is set to Running
    unconditionally on entry, the cycle counter incremented, the timers
    decremented when due, two bytes fetched from the program counter
    which then advances by one opcode, the opcode decoded, and the
    instruction dispatched. A fetch, decode or execute error sets the
    status to Crashed and returns the bare error; on success the flag
    tells whether the 00E0 or DXYN instruction updated the display. The
    trailing processor speed spin loop and the wall clock bookkeeping are
    timing only and carry no modelled state. -/
def execute_cycle (p : Processor) (rand : Rand) (timer_due : Bool) :
    Option ((Except ErrorDetail Bool) × Processor) :=
  let p := { p with status := .Running }
  let p := { p with cycles := p.cycles + 1 }
  let p := p.decrement_timers timer_due
  match p.memory.read_two_bytes p.program_counter with
  | .error e => some (.error e, { p with status := .Crashed })
  | .ok opcode =>
    let p := { p with program_counter := (p.program_counter + 2) % 65536 }
    match Instruction.decode_from opcode with
    | .error e => some (.error e, { p with status := .Crashed })
    | .ok instruction =>
      let display_updated := match instruction with
        | .Op00E0 => true
        | .OpDXYN _ _ _ => true
        | _ => false
      match p.execute instruction rand with
      | none => none
      | some (.error e, p) => some (.error e, { p with status := .Crashed })
      | some (.ok _, p) => some (.ok display_updated, p)

theorem vr_setVr_self (p : Processor) (i v : Nat)
    (h : i < p.variable_registers.length) : (p.setVr i v).vr i = v :=
  byteAt_set_self _ _ _ h

theorem vr_setVr_ne (p : Processor) (i j v : Nat) (h : i ≠ j) :
    (p.setVr i v).vr j = p.vr j :=
  byteAt_set_ne _ _ _ _ h

theorem length_setVr (p : Processor) (i v : Nat) :
    (p.setVr i v).variable_registers.length = p.variable_registers.length := by
  simp [Processor.setVr]

/-- Behaviour of the register load loop of FX65 when every address it
    touches is in bounds: it succeeds, leaves the memory, the index
    register and the registers outside the loaded window untouched, and
    fills the window from memory at the original index base. -/
theorem loadRegsLoop_spec (orig : Nat) :
    ∀ (k i : Nat) (p : Processor),
      (∀ j, j < k → orig + i + j < p.memory.address_limit) →
      i + k ≤ p.variable_registers.length →
      ∃ q, loadRegsLoop orig i k p = some q ∧
        q.memory = p.memory ∧
        q.index_register = p.index_register ∧
        q.variable_registers.length = p.variable_registers.length ∧
        (∀ t, t < i ∨ i + k ≤ t → q.vr t = p.vr t) ∧
        (∀ j, j < k → q.vr (i + j) = byteAt p.memory.bytes (orig + i + j)) := by
  intro k
  induction k with
  | zero =>
    intro i p _ _
    exact ⟨p, rfl, rfl, rfl, rfl, fun t _ => rfl, fun j hj => absurd hj (by omega)⟩
  | succ k ih =>
    intro i p hb hlen
    have hr : p.memory.read_byte (orig + i) =
        .ok (byteAt p.memory.bytes (orig + i)) := by
      unfold Memory.read_byte
      rw [if_neg (by have := hb 0 (by omega); omega)]
    obtain ⟨q, hq, hmem, hidx, hqlen, hout, hin⟩ :=
      ih (i + 1) (p.setVr i (byteAt p.memory.bytes (orig + i)))
        (fun j hj => by
          have := hb (j + 1) (by omega)
          simpa [Processor.setVr] using (by omega : orig + (i + 1) + j <
            p.memory.address_limit))
        (by rw [length_setVr]; omega)
    refine ⟨q, ?_, ?_, ?_, ?_, ?_, ?_⟩
    · simp only [loadRegsLoop]
      rw [hr]
      exact hq
    · exact hmem
    · exact hidx
    · rw [hqlen, length_setVr]
    · intro t ht
      have h1 : q.vr t = (p.setVr i (byteAt p.memory.bytes (orig + i))).vr t :=
        hout t (by omega)
      rw [h1, vr_setVr_ne _ _ _ _ (by omega)]
    · intro j hj
      cases j with
      | zero =>
        have h1 : q.vr i = (p.setVr i (byteAt p.memory.bytes (orig + i))).vr i :=
          hout i (by omega)
        have h2 : (p.setVr i (byteAt p.memory.bytes (orig + i))).vr i =
            byteAt p.memory.bytes (orig + i) :=
          vr_setVr_self _ _ _ (by omega)
        simpa using h1.trans h2
      | succ j =>
        have h1 := hin j (by omega)
        have e1 : i + (j + 1) = i + 1 + j := by omega
        have e2 : orig + i + (j + 1) = orig + (i + 1) + j := by omega
        rw [e1, e2]
        exact h1

end Processor

/-! ## Concrete processor fixtures used by the claim theorems -/

/-- A freshly initialised base variant processor: zeroed registers, zeroed
    timers, empty 12 deep stack, zeroed memory with the large CHIP-8
    address limit, the low resolution display, no key pressed, and the
    program counter at the default program start address. -/
def sampleChip8 : Processor :=
  { frame_buffer := ⟨8, 32, List.replicate 256 0⟩
    stack := ⟨List.replicate 16 0, 0, 12⟩
    memory := ⟨List.replicate 520 0, 0xEA0⟩
    program_counter := 0x200
    index_register := 0
    variable_registers := List.replicate 16 0
    rpl_registers := List.replicate 8 0
    delay_timer := 0
    sound_timer := 0
    cycles := 0
    keystate := ⟨List.replicate 16 false⟩
    status := .ProgramLoaded
    low_resolution_font := Font.default_low_resolution
    high_resolution_font := none
    font_start_address := 0x50
    high_resolution_font_start_address := 0
    high_resolution_mode := false
    emulation_level := .Chip8 false false }

/-- sampleChip8 with the opcode 0xA111 placed at the program counter. -/
def cycleFixture : Processor :=
  { sampleChip8 with
    memory := ⟨((List.replicate 520 0).set 0x200 0xA1).set 0x201 0x11, 0xEA0⟩ }

/-- sampleChip8 with the guaranteed unknown opcode 0xFFFF placed at the
    program counter. -/
def badOpcodeFixture : Processor :=
  { sampleChip8 with
    memory := ⟨((List.replicate 520 0).set 0x200 0xFF).set 0x201 0xFF, 0xEA0⟩ }

/-- sampleChip8 waiting on the blocking key wait with key 0xB pressed and
    never released since. -/
def waitingFixture : Processor :=
  { sampleChip8 with
    program_counter := 0xC5
    status := .WaitingForKeypress
    keystate := ⟨(List.replicate 16 false).set 0xB true⟩ }

/-- sampleChip8 with the index register pointed at 0x25A, as the block
    transfer tests of the repository do. -/
def blockFixture : Processor :=
  { sampleChip8 with index_register := 0x25A }

/-- waitingFixture with register V9 naming the pressed key 0xB. -/
def keyFixture : Processor :=
  { waitingFixture with variable_registers := (List.replicate 16 0).set 9 0xB }

open Processor (vr_setVr_self vr_setVr_ne length_setVr loadRegsLoop_spec)

/-- The shift operand the register shift instructions actually use: the
    second operand register under the base variant (which copies it into
    the destination first), the destination register itself under the
    other two variants. -/
def shiftOperand (p : Processor) (x y : Nat) : Nat :=
  match p.emulation_level with
  | .Chip8 _ _ => p.vr y
  | .Chip48 => p.vr x
  | .SuperChip11 _ => p.vr x

/-- C7: for valid register indices the right shift 8XY6 and the left
    shift 8XYE succeed with 112 cycles and, under the base Chip8 variant,
    first copy the second operand register Vy into the destination Vx and
    shift that value, while under Chip48 and SuperChip11 they ignore Vy
    and shift Vx in place; in every variant the flag register VF receives
    the shifted out bit of the operand actually shifted (its low bit for
    8XY6, its high bit for 8XYE), the destination holds the shifted
    operand whenever it is not VF itself, and all other registers are
    untouched. -/
theorem shift_instructions_variant_quirks (p : Processor) (x y : Nat)
    (hx : x < 16) (hy : y < 16) (hlen : p.variable_registers.length = 16) :
    (∃ q : Processor,
      p.execute_8XY6 x y = hok 112 q ∧
      q.vr 0xF = (if shiftOperand p x y &&& 0x01 = 0x01 then 1 else 0) ∧
      (x ≠ 0xF → q.vr x = shiftOperand p x y >>> 1) ∧
      (∀ i, i ≠ x → i ≠ 0xF → q.vr i = p.vr i)) ∧
    (∃ q : Processor,
      p.execute_8XYE x y = hok 112 q ∧
      q.vr 0xF = (if shiftOperand p x y &&& 0x80 = 0x80 then 1 else 0) ∧
      (x ≠ 0xF → q.vr x = (shiftOperand p x y <<< 1) % 256) ∧
      (∀ i, i ≠ x → i ≠ 0xF → q.vr i = p.vr i)) := by
  have hg : ¬(x ≥ 16 ∨ y ≥ 16) := by omega
  have hx1 : x < p.variable_registers.length := by omega
  cases hl : p.emulation_level with
  | Chip8 m2k vct =>
    have hcopy : (p.setVr x (p.vr y)).vr x = p.vr y := vr_setVr_self _ _ _ hx1
    have hop : shiftOperand p x y = p.vr y := by
      simp only [shiftOperand, hl]
    constructor
    · have e6 : p.execute_8XY6 x y =
          hok 112 (((p.setVr x (p.vr y)).setVr x (p.vr y >>> 1)).setVr 0xF
            (if p.vr y &&& 0x01 = 0x01 then 1 else 0)) := by
        unfold Processor.execute_8XY6
        rw [if_neg hg, hl]
        dsimp only
        rw [hcopy]
      refine ⟨_, e6, ?_, ?_, ?_⟩
      · rw [hop, vr_setVr_self _ _ _ (by rw [length_setVr, length_setVr, hlen]; omega)]
      · intro hne
        rw [hop, vr_setVr_ne _ _ _ _ (Ne.symm hne),
          vr_setVr_self _ _ _ (by rw [length_setVr, hlen]; omega)]
      · intro i hix hif
        rw [vr_setVr_ne _ _ _ _ (Ne.symm hif), vr_setVr_ne _ _ _ _ (Ne.symm hix),
          vr_setVr_ne _ _ _ _ (Ne.symm hix)]
    · have eE : p.execute_8XYE x y =
          hok 112 (((p.setVr x (p.vr y)).setVr x ((p.vr y <<< 1) % 256)).setVr 0xF
            (if p.vr y &&& 0x80 = 0x80 then 1 else 0)) := by
        unfold Processor.execute_8XYE
        rw [if_neg hg, hl]
        dsimp only
        rw [hcopy]
      refine ⟨_, eE, ?_, ?_, ?_⟩
      · rw [hop, vr_setVr_self _ _ _ (by rw [length_setVr, length_setVr, hlen]; omega)]
      · intro hne
        rw [hop, vr_setVr_ne _ _ _ _ (Ne.symm hne),
          vr_setVr_self _ _ _ (by rw [length_setVr, hlen]; omega)]
      · intro i hix hif
        rw [vr_setVr_ne _ _ _ _ (Ne.symm hif), vr_setVr_ne _ _ _ _ (Ne.symm hix),
          vr_setVr_ne _ _ _ _ (Ne.symm hix)]
  | Chip48 =>
    have hop : shiftOperand p x y = p.vr x := by
      simp only [shiftOperand, hl]
    constructor
    · have e6 : p.execute_8XY6 x y =
          hok 112 ((p.setVr x (p.vr x >>> 1)).setVr 0xF
            (if p.vr x &&& 0x01 = 0x01 then 1 else 0)) := by
        unfold Processor.execute_8XY6
        rw [if_neg hg, hl]
      refine ⟨_, e6, ?_, ?_, ?_⟩
      · rw [hop, vr_setVr_self _ _ _ (by rw [length_setVr, hlen]; omega)]
      · intro hne
        rw [hop, vr_setVr_ne _ _ _ _ (Ne.symm hne), vr_setVr_self _ _ _ hx1]
      · intro i hix hif
        rw [vr_setVr_ne _ _ _ _ (Ne.symm hif), vr_setVr_ne _ _ _ _ (Ne.symm hix)]
    · have eE : p.execute_8XYE x y =
          hok 112 ((p.setVr x ((p.vr x <<< 1) % 256)).setVr 0xF
            (if p.vr x &&& 0x80 = 0x80 then 1 else 0)) := by
        unfold Processor.execute_8XYE
        rw [if_neg hg, hl]
      refine ⟨_, eE, ?_, ?_, ?_⟩
      · rw [hop, vr_setVr_self _ _ _ (by rw [length_setVr, hlen]; omega)]
      · intro hne
        rw [hop, vr_setVr_ne _ _ _ _ (Ne.symm hne), vr_setVr_self _ _ _ hx1]
      · intro i hix hif
        rw [vr_setVr_ne _ _ _ _ (Ne.symm hif), vr_setVr_ne _ _ _ _ (Ne.symm hix)]
  | SuperChip11 octo =>
    have hop : shiftOperand p x y = p.vr x := by
      simp only [shiftOperand, hl]
    constructor
    · have e6 : p.execute_8XY6 x y =
          hok 112 ((p.setVr x (p.vr x >>> 1)).setVr 0xF
            (if p.vr x &&& 0x01 = 0x01 then 1 else 0)) := by
        unfold Processor.execute_8XY6
        rw [if_neg hg, hl]
      refine ⟨_, e6, ?_, ?_, ?_⟩
      · rw [hop, vr_setVr_self _ _ _ (by rw [length_setVr, hlen]; omega)]
      · intro hne
        rw [hop, vr_setVr_ne _ _ _ _ (Ne.symm hne), vr_setVr_self _ _ _ hx1]
      · intro i hix hif
        rw [vr_setVr_ne _ _ _ _ (Ne.symm hif), vr_setVr_ne _ _ _ _ (Ne.symm hix)]
    · have eE : p.execute_8XYE x y =
          hok 112 ((p.setVr x ((p.vr x <<< 1) % 256)).setVr 0xF
            (if p.vr x &&& 0x80 = 0x80 then 1 else 0)) := by
        unfold Processor.execute_8XYE
        rw [if_neg hg, hl]
      refine ⟨_, eE, ?_, ?_, ?_⟩
      · rw [hop, vr_setVr_self _ _ _ (by rw [length_setVr, hlen]; omega)]
      · intro hne
        rw [hop, vr_setVr_ne _ _ _ _ (Ne.symm hne), vr_setVr_self _ _ _ hx1]
      · intro i hix hif
        rw [vr_setVr_ne _ _ _ _ (Ne.symm hif), vr_setVr_ne _ _ _ _ (Ne.symm hix)]

/-- The index register value after a block store or block load: advanced
    by x + 1 under the base Chip8 variant, by x under Chip48, and left
    unchanged under SuperChip11, truncated to 16 bits where the source
    casts. -/
def blockIndex (p : Processor) (x : Nat) : Nat :=
  match p.emulation_level with
  | .Chip8 _ _ => (p.index_register + x + 1) % 65536
  | .Chip48 => (p.index_register + x) % 65536
  | .SuperChip11 _ => p.index_register

/-- C8: for a valid register operand and transfers within addressable
    memory, the block store FX55 writes registers V0..Vx to memory
    starting at the original pre increment index register, and the block
    load FX65 fills V0..Vx from memory starting at the original pre
    increment index register leaving memory and the higher registers
    untouched; in both cases the index register ends at the original
    value plus x + 1 under the base Chip8 variant, plus x under Chip48,
    and unchanged under SuperChip11. -/
theorem block_transfer_index_quirks (p : Processor) (x : Nat) (hx : x < 16)
    (hlen : p.variable_registers.length = 16)
    (hm : p.index_register + x < p.memory.address_limit) :
    (∃ m, p.memory.write_bytes p.index_register
        (p.variable_registers.take (x + 1)) = .ok m ∧
      p.execute_FX55 x = hok (86 + 14 * (x + 1))
        { p with memory := m, index_register := blockIndex p x }) ∧
    (∃ q, p.execute_FX65 x = hok (86 + 14 * (x + 1)) q ∧
      q.memory = p.memory ∧
      q.index_register = blockIndex p x ∧
      (∀ i, i ≤ x → q.vr i = byteAt p.memory.bytes (p.index_register + i)) ∧
      (∀ i, x < i → q.vr i = p.vr i)) := by
  have hto : (p.variable_registers.take (x + 1)).length = x + 1 := by
    rw [List.length_take, hlen]; omega
  have hw : p.memory.write_bytes p.index_register
      (p.variable_registers.take (x + 1)) =
      .ok ⟨Memory.writeList p.memory.bytes p.index_register
        (p.variable_registers.take (x + 1)), p.memory.address_limit⟩ := by
    unfold Memory.write_bytes
    dsimp only
    rw [if_neg (by rw [hto]; omega)]
  cases hl : p.emulation_level with
  | Chip8 m2k vct =>
    constructor
    · refine ⟨_, hw, ?_⟩
      simp only [blockIndex, hl]
      unfold Processor.execute_FX55
      rw [if_neg (by omega), hl]
      dsimp only
      rw [hw]
    · obtain ⟨q, hq, hmem, hidx, hqlen, hout, hin⟩ :=
        loadRegsLoop_spec p.index_register (x + 1) 0
          { p with
            index_register := (p.index_register + x + 1) % 65536
            emulation_level := EmulationLevel.Chip8 m2k vct }
          (by intro j hj
              show p.index_register + 0 + j < p.memory.address_limit
              omega)
          (by show 0 + (x + 1) ≤ p.variable_registers.length
              omega)
      refine ⟨q, ?_, hmem, ?_, ?_, ?_⟩
      · unfold Processor.execute_FX65
        rw [if_neg (by omega), hl]
        dsimp only
        rw [hq]
      · simp only [blockIndex, hl]
        exact hidx
      · intro i hi
        have h := hin i (by omega)
        rw [Nat.zero_add] at h
        exact h
      · intro i hi
        exact hout i (Or.inr (by omega))
  | Chip48 =>
    constructor
    · refine ⟨_, hw, ?_⟩
      simp only [blockIndex, hl]
      unfold Processor.execute_FX55
      rw [if_neg (by omega), hl]
      dsimp only
      rw [hw]
    · obtain ⟨q, hq, hmem, hidx, hqlen, hout, hin⟩ :=
        loadRegsLoop_spec p.index_register (x + 1) 0
          { p with
            index_register := (p.index_register + x) % 65536
            emulation_level := EmulationLevel.Chip48 }
          (by intro j hj
              show p.index_register + 0 + j < p.memory.address_limit
              omega)
          (by show 0 + (x + 1) ≤ p.variable_registers.length
              omega)
      refine ⟨q, ?_, hmem, ?_, ?_, ?_⟩
      · unfold Processor.execute_FX65
        rw [if_neg (by omega), hl]
        dsimp only
        rw [hq]
      · simp only [blockIndex, hl]
        exact hidx
      · intro i hi
        have h := hin i (by omega)
        rw [Nat.zero_add] at h
        exact h
      · intro i hi
        exact hout i (Or.inr (by omega))
  | SuperChip11 octo =>
    constructor
    · refine ⟨_, hw, ?_⟩
      simp only [blockIndex, hl]
      unfold Processor.execute_FX55
      rw [if_neg (by omega), hl]
      dsimp only
      rw [hw]
      rw [hl]
    · obtain ⟨q, hq, hmem, hidx, hqlen, hout, hin⟩ :=
        loadRegsLoop_spec p.index_register (x + 1) 0 p
          (by intro j hj
              show p.index_register + 0 + j < p.memory.address_limit
              omega)
          (by show 0 + (x + 1) ≤ p.variable_registers.length
              omega)
      refine ⟨q, ?_, hmem, ?_, ?_, ?_⟩
      · unfold Processor.execute_FX65
        rw [if_neg (by omega), hl]
        dsimp only
        rw [hq]
      · simp only [blockIndex, hl]
        exact hidx
      · intro i hi
        have h := hin i (by omega)
        rw [Nat.zero_add] at h
        exact h
      · intro i hi
        exact hout i (Or.inr (by omega))

/-- C10: with a valid register operand naming a valid key that is
    currently pressed, the skip if pressed instruction EX9E advances the
    program counter by one opcode and resets that key to unpressed, and
    the skip if not pressed instruction EXA1 leaves the program counter
    unchanged and likewise resets the key to unpressed; in both result
    states a fresh key query reports the key as not pressed. -/
theorem skip_key_instructions_consume_press (p : Processor) (x : Nat)
    (hx : x < 16) (hkey : p.vr x < 16)
    (hpressed : p.keystate.keys_pressed.getD (p.vr x) false = true)
    (hklen : p.keystate.keys_pressed.length = 16) :
    (p.execute_EX9E x = hok 86
      { p with
        program_counter := (p.program_counter + 2) % 65536
        keystate := ⟨p.keystate.keys_pressed.set (p.vr x) false⟩ }) ∧
    (p.execute_EXA1 x = hok 82
      { p with keystate := ⟨p.keystate.keys_pressed.set (p.vr x) false⟩ }) ∧
    KeyState.is_key_pressed ⟨p.keystate.keys_pressed.set (p.vr x) false⟩
      (p.vr x) = .ok false := by
  have hk : p.keystate.is_key_pressed (p.vr x) = .ok true := by
    unfold KeyState.is_key_pressed
    rw [if_pos hkey, hpressed]
  have hs : p.keystate.set_key_status (p.vr x) false =
      .ok ⟨p.keystate.keys_pressed.set (p.vr x) false⟩ := by
    unfold KeyState.set_key_status
    rw [if_pos hkey]
  refine ⟨?_, ?_, ?_⟩
  · unfold Processor.execute_EX9E
    rw [if_neg (by omega)]
    dsimp only
    rw [hk, hs]
    rfl
  · unfold Processor.execute_EXA1
    rw [if_neg (by omega)]
    dsimp only
    rw [hk, hs]
    rfl
  · have hset : (p.keystate.keys_pressed.set (p.vr x) false).getD
        (p.vr x) false = false := by
      have hlt : p.vr x < p.keystate.keys_pressed.length := by omega
      simp [List.getD, List.getElem?_set_self, hlt]
    unfold KeyState.is_key_pressed
    rw [if_pos hkey]
    dsimp only
    rw [hset]

/-- C1: the execute_cycle entry point never examines the processor
    status: the first statement overwrites it with Running, so calls on a
    processor in any status, Crashed included, are not rejected; in
    particular a crashed processor with a valid opcode at its program
    counter runs a full fetch, decode and execute iteration, ends in
    status Running, and has its cycle counter, program counter and index
    register advanced. -/
theorem execute_cycle_ignores_status :
    (∀ (p : Processor) (r : Rand) (t : Bool) (st : ProcessorStatus),
      Processor.execute_cycle { p with status := st } r t =
        Processor.execute_cycle p r t) ∧
    (∃ q : Processor,
      Processor.execute_cycle { cycleFixture with status := .Crashed }
          ⟨0, 0, 0⟩ false = some (.ok false, q) ∧
      q.status = .Running ∧ q.cycles = 1 ∧
      q.program_counter = 0x202 ∧ q.index_register = 0x111) := by
  constructor
  · intro p r t st
    rfl
  · refine ⟨_, rfl, ?_, ?_, ?_, ?_⟩ <;> rfl

/-- C3: the blocking key wait FX0A resolves on a key that is pressed and
    has not been released: with key 0xB held down and never released, one
    execution stores 0xB into V3, returns the status to Running and
    leaves the program counter in place, instead of keeping the processor
    waiting for a release edge. -/
theorem fx0a_resolves_on_press_without_release :
    ∃ q : Processor,
      waitingFixture.execute_FX0A 3 = hok 19072 q ∧
      q.status = .Running ∧ q.vr 3 = 0xB ∧
      q.program_counter = 0xC5 := by
  refine ⟨_, rfl, ?_, ?_, ?_⟩ <;> rfl

/-- C4: fetching and decoding the guaranteed unknown opcode 0xFFFF sets
    the status to Crashed, but the value returned to the caller is the
    bare decode error carrying only the opcode: no state snapshot of any
    kind is attached at this return site. -/
theorem execute_cycle_unknown_opcode_bare_error :
    ∃ q : Processor,
      Processor.execute_cycle badOpcodeFixture ⟨0, 0, 0⟩ false =
        some (.error (.UnknownInstruction 0xFFFF), q) ∧
      q.status = .Crashed ∧ q.program_counter = 0x202 ∧ q.cycles = 1 := by
  refine ⟨_, rfl, ?_, ?_, ?_⟩ <;> rfl

/-- Witness for C7: the shift quirks theorem applied to the fresh base
    variant processor at registers 0xE and 0x7. -/
theorem shift_instructions_variant_quirks_witness :
    (∃ q : Processor,
      sampleChip8.execute_8XY6 0xE 0x7 = hok 112 q ∧
      q.vr 0xF = (if shiftOperand sampleChip8 0xE 0x7 &&& 0x01 = 0x01
        then 1 else 0) ∧
      (0xE ≠ 0xF → q.vr 0xE = shiftOperand sampleChip8 0xE 0x7 >>> 1) ∧
      (∀ i, i ≠ 0xE → i ≠ 0xF → q.vr i = sampleChip8.vr i)) ∧
    (∃ q : Processor,
      sampleChip8.execute_8XYE 0xE 0x7 = hok 112 q ∧
      q.vr 0xF = (if shiftOperand sampleChip8 0xE 0x7 &&& 0x80 = 0x80
        then 1 else 0) ∧
      (0xE ≠ 0xF → q.vr 0xE = (shiftOperand sampleChip8 0xE 0x7 <<< 1) % 256) ∧
      (∀ i, i ≠ 0xE → i ≠ 0xF → q.vr i = sampleChip8.vr i)) :=
  shift_instructions_variant_quirks sampleChip8 0xE 0x7 (by decide) (by decide)
    (by decide)

/-- Witness for C8: the block transfer theorem applied to the base
    variant processor with the index register at 0x25A and x = 3. -/
theorem block_transfer_index_quirks_witness :
    (∃ m, blockFixture.memory.write_bytes blockFixture.index_register
        (blockFixture.variable_registers.take (3 + 1)) = .ok m ∧
      blockFixture.execute_FX55 3 = hok (86 + 14 * (3 + 1))
        { blockFixture with
          memory := m
          index_register := blockIndex blockFixture 3 }) ∧
    (∃ q, blockFixture.execute_FX65 3 = hok (86 + 14 * (3 + 1)) q ∧
      q.memory = blockFixture.memory ∧
      q.index_register = blockIndex blockFixture 3 ∧
      (∀ i, i ≤ 3 → q.vr i =
        byteAt blockFixture.memory.bytes (blockFixture.index_register + i)) ∧
      (∀ i, 3 < i → q.vr i = blockFixture.vr i)) :=
  block_transfer_index_quirks blockFixture 3 (by decide) (by decide) (by decide)

/-- Witness for C10: the key consuming skip theorem applied to the
    processor whose register V9 names the pressed key 0xB. -/
theorem skip_key_instructions_consume_press_witness :
    (keyFixture.execute_EX9E 9 = hok 86
      { keyFixture with
        program_counter := (keyFixture.program_counter + 2) % 65536
        keystate := ⟨keyFixture.keystate.keys_pressed.set
          (keyFixture.vr 9) false⟩ }) ∧
    (keyFixture.execute_EXA1 9 = hok 82
      { keyFixture with keystate := ⟨keyFixture.keystate.keys_pressed.set
        (keyFixture.vr 9) false⟩ }) ∧
    KeyState.is_key_pressed ⟨keyFixture.keystate.keys_pressed.set
      (keyFixture.vr 9) false⟩ (keyFixture.vr 9) = .ok false :=
  skip_key_instructions_consume_press keyFixture 9 (by decide) (by decide)
    (by decide) (by decide)

end Chipolata